import Mathlib

/-!
Shallow embedding of the batched V3 quote fetcher
(`src/providers/v3/quote-provider.ts`) and proofs of the spec claims.

Conventions of the embedding:
* `BigNumber` values (block numbers, quotes, gas estimates) are `Nat`.
* JS strings are `String`; provider error messages are `List Char` so that
  truncation (`String.prototype.slice(0, 500)`) is `List.take 500`.
* The JS float `quoteMinSuccessRate` is a rational `ℚ`; the comparison
  `successRate < quoteMinSuccessRate` is computed by integer
  cross-multiplication, with `rateBelowJS_iff` proving it equal to the
  division form.  `0/0` (a JS `NaN`, for which `NaN < m` is `false`) is the
  `numResults = 0` branch.
* The multicall aggregator and the block-number fetch are oracles passed in
  as functions; `lodash`'s `_.chunk` is `chunkList` (for a size of `0`,
  which is what `Math.ceil(0/0) = NaN` coerces to inside `_.chunk`, lodash
  returns `[]`).
* `async-retry` is modelled by `runLoop` with fuel `retries + 1`; every
  exception thrown inside the retry callback is one of the
  `AttemptResult` error constructors.
-/

namespace V3

/-- `[string, string]` pair `(encodedPath, hex amount)` sent to the quoter. -/
abbrev EncodedInput := String × String

/-- One entry of the multicall's `results` array: `Result<[BigNumber, BigNumber[], number[], BigNumber]>`. -/
structure RawResult where
  success : Bool
  quote : Nat
  sqrtPriceX96AfterList : List Nat
  initializedTicksCrossedList : List Nat
  gasEstimate : Nat
deriving DecidableEq

/-- The payload of a successful multicall: block number, per-input results,
and the aggregate gas figure. -/
structure BatchResults where
  blockNumber : Nat
  results : List RawResult
  approxGasUsedPerSuccessCall : Nat
deriving DecidableEq

/-- The error classes of the source file (`BlockConflictError`,
`SuccessRateError`, `ProviderBlockHeaderError`, `ProviderTimeoutError`,
`ProviderGasError`, plain `Error`), each carrying its message. -/
inductive QuoteError where
  | blockConflict (msg : List Char)
  | successRate (msg : List Char)
  | providerBlockHeader (msg : List Char)
  | providerTimeout (msg : List Char)
  | providerGas (msg : List Char)
  | unknown (msg : List Char)
deriving DecidableEq

/-- `QuoteBatchState = QuoteBatchSuccess | QuoteBatchFailed | QuoteBatchPending`. -/
inductive QuoteBatchState where
  | pending (inputs : List EncodedInput)
  | success (inputs : List EncodedInput) (results : BatchResults)
  | failed (inputs : List EncodedInput) (reason : QuoteError) (results : Option BatchResults)
deriving DecidableEq

def QuoteBatchState.inputs : QuoteBatchState → List EncodedInput
  | .pending i => i
  | .success i _ => i
  | .failed i _ _ => i

def QuoteBatchState.isSuccess : QuoteBatchState → Bool
  | .success _ _ => true
  | _ => false

def QuoteBatchState.isFailed : QuoteBatchState → Bool
  | .failed _ _ _ => true
  | _ => false

def QuoteBatchState.isPending : QuoteBatchState → Bool
  | .pending _ => true
  | _ => false

def QuoteBatchState.reasonOf : QuoteBatchState → Option QuoteError
  | .failed _ r _ => some r
  | _ => none

def QuoteBatchState.resultsOf : QuoteBatchState → Option BatchResults
  | .success _ r => some r
  | _ => none

def QuoteError.isBlockConflict : QuoteError → Bool
  | .blockConflict _ => true
  | _ => false

def QuoteError.isSuccessRate : QuoteError → Bool
  | .successRate _ => true
  | _ => false

def QuoteError.isBlockHeader : QuoteError → Bool
  | .providerBlockHeader _ => true
  | _ => false

def QuoteError.isGas : QuoteError → Bool
  | .providerGas _ => true
  | _ => false

/-- `batchParams` of the provider. -/
structure BatchParams where
  multicallChunk : Nat
  gasLimitPerCall : Nat
  quoteMinSuccessRate : ℚ

/-- `successRateFailureOverrides` of the provider. -/
structure SuccessRateFailureOverrides where
  multicallChunk : Nat
  gasLimitOverride : Nat

/-- Per-call constructor configuration of `V3QuoteProvider` plus the
provider's current block (the value `provider.getBlockNumber()` resolves
to, used when no block is pinned and in the rollback refetch branch). -/
structure EngineConfig where
  batchParams : BatchParams
  successRateFailureOverrides : SuccessRateFailureOverrides
  rollback : Bool
  retries : Nat
  currentBlock : Nat

/-- Does `pat` occur at the start of `s`?  (helper for JS `String.includes`) -/
def listStartsWith : List Char → List Char → Bool
  | [], _ => true
  | _ :: _, [] => false
  | p :: ps, c :: cs => p == c && listStartsWith ps cs

/-- JS `s.includes(pat)`: `pat` occurs contiguously somewhere in `s`. -/
def listHasSub (pat : List Char) : List Char → Bool
  | [] => listStartsWith pat []
  | c :: cs => listStartsWith pat (c :: cs) || listHasSub pat cs

/-- The `Req ${idx}/${quoteStates.length}. Request had ${inputs.length} inputs. `
prefix the source prepends to truncated timeout messages. -/
def timeoutContext (idx numStates numInputs : Nat) : List Char :=
  (s!"Req {idx}/{numStates}. Request had {numInputs} inputs. ").toList

/-- The `catch` block of the per-batch task (lines 421-461): classify the
thrown provider error by substring match, in order, truncating the provider
message with `.slice(0, 500)`. -/
def classifyError (idx numStates numInputs : Nat) (msg : List Char) : QuoteError :=
  if listHasSub "header not found".toList msg then
    .providerBlockHeader (msg.take 500)
  else if listHasSub "timeout".toList msg then
    .providerTimeout (timeoutContext idx numStates numInputs ++ msg.take 500)
  else if listHasSub "out of gas".toList msg then
    .providerGas (msg.take 500)
  else
    .unknown ("Unknown error from provider: ".toList ++ msg.take 500)

/-- The JS comparison `(1.0 * numSuccessResults) / numResults < quoteMinSuccessRate`.
For `numResults = 0` the quotient is `NaN` and the comparison is `false`.
For `numResults ≠ 0` the division is exact here, computed by integer
cross-multiplication; `rateBelowJS_iff` below equates it with the
division form `(s : ℚ) / n < m`. -/
def rateBelowJS (numSuccessResults numResults : Nat) (m : ℚ) : Bool :=
  if numResults = 0 then false
  else decide ((numSuccessResults : ℤ) * m.den < m.num * numResults)

/-- `validateSuccessRate` (lines 842-866). -/
def validateSuccessRate (quoteMinSuccessRate : ℚ)
    (allResults : List RawResult) (haveRetriedForSuccessRate : Bool) :
    Option QuoteError :=
  let numResults := allResults.length
  let numSuccessResults := (allResults.filter (fun r => r.success)).length
  if rateBelowJS numSuccessResults numResults quoteMinSuccessRate then
    if haveRetriedForSuccessRate then none
    else some (.successRate "Quote success rate below threshold".toList)
  else none

/-- `validateBlockNumbers` (lines 805-840): `null` when at most one batch
succeeded or all successful batches agree on the block number, otherwise a
`BlockConflictError`.  `totalCalls` and `gasLimitOverride` only feed the
message.  (Lodash `_.uniq` keeps first occurrences while `List.dedup` keeps
last ones; only the count of distinct values is consumed.) -/
def validateBlockNumbers (successResults : List BatchResults)
    (totalCalls gasLimitOverride : Nat) : Option QuoteError :=
  if successResults.length ≤ 1 then none
  else
    let blockNumbers := successResults.map (fun r => r.blockNumber)
    let uniqBlocks := blockNumbers.dedup
    if uniqBlocks.length = 1 then none
    else some (.blockConflict
      (s!"Quotes returned from different blocks. {totalCalls} calls were made with gas limit {gasLimitOverride}").toList)

/-- `lodash`'s `_.chunk(l, size)` (fuel-structured so it computes in the
kernel): contiguous chunks of `size`, the last possibly shorter; `[]` when
`l` is empty or `size` is `0`. -/
def chunkListGo {β : Type} (size : Nat) : Nat → List β → List (List β)
  | 0, _ => []
  | _, [] => []
  | fuel + 1, b :: bs => (b :: bs).take size :: chunkListGo size fuel ((b :: bs).drop size)

def chunkList {β : Type} (size : Nat) (l : List β) : List (List β) :=
  if size = 0 then [] else chunkListGo size l.length l

/-- JS `Math.ceil(a / b)` on non-negative integers.  (For `b = 0` JS yields
`Infinity`/`NaN`, which downstream lodash coerces to chunk size `0`; the
`Nat` value `0` produced here feeds `chunkList` identically.) -/
def ceilDivJS (a b : Nat) : Nat := (a + b - 1) / b

/-- Lines 318-320 / 597-599:
`Math.ceil(inputs.length / Math.ceil(inputs.length / multicallChunk))`. -/
def normalizedChunkOf (n multicallChunk : Nat) : Nat :=
  ceilDivJS n (ceilDivJS n multicallChunk)

/-- Lines 304-316: flatten `(routes × amounts)` route-major / amount-minor
into `[encodedRoute, '0x' + amount.quotient.toString(16)]` pairs.
`encodePath` models `encodeRouteToPath(route, exactOut)` and `hexAmount`
models `amount.quotient.toString(16)`. -/
def buildInputs {ρ α : Type} (routes : List ρ) (amounts : List α)
    (encodePath : ρ → Bool → String) (exactOut : Bool) (hexAmount : α → String) :
    List EncodedInput :=
  routes.flatMap (fun route =>
    let encodedRoute := encodePath route exactOut
    amounts.map (fun amount => (encodedRoute, "0x" ++ hexAmount amount)))

/-- Structural `map` with the element index (what `_.map(l, (x, idx) => …)`
and `mapIdx` do), recursing from index `k`. -/
def mapWithIndexFrom {β γ : Type} (f : Nat → β → γ) : Nat → List β → List γ
  | _, [] => []
  | k, b :: bs => f k b :: mapWithIndexFrom f (k + 1) bs

def mapWithIndex {β γ : Type} (f : Nat → β → γ) (l : List β) : List γ :=
  mapWithIndexFrom f 0 l

/-- `V3AmountQuote`: `null` fields are `none`. -/
structure V3AmountQuote (α : Type) where
  amount : α
  quote : Option Nat
  sqrtPriceX96AfterList : Option (List Nat)
  initializedTicksCrossedList : Option (List Nat)
  gasEstimate : Option Nat
deriving DecidableEq

/-- `V3RouteWithQuotes = [V3Route, V3AmountQuote[]]`. -/
abbrev V3RouteWithQuotes (ρ α : Type) := ρ × List (V3AmountQuote α)

/-- The per-`(amount, result)` body of the inner `_.map` in
`processQuoteResults` (lines 738-772): a failed raw result keeps its amount
with every other field `null`, a successful one copies the raw tuple. -/
def quoteRecordOf {α : Type} (amount : α) (quoteResult : RawResult) : V3AmountQuote α :=
  if !quoteResult.success then
    { amount := amount, quote := none, sqrtPriceX96AfterList := none,
      gasEstimate := none, initializedTicksCrossedList := none }
  else
    { amount := amount, quote := some quoteResult.quote,
      sqrtPriceX96AfterList := some quoteResult.sqrtPriceX96AfterList,
      initializedTicksCrossedList := some quoteResult.initializedTicksCrossedList,
      gasEstimate := some quoteResult.gasEstimate }

/-- `processQuoteResults` (lines 720-803, the debug logging dropped):
chunk the flat result vector by `amounts.length`; for chunk `i` pair
`routes[i]!` with the per-amount records. -/
def processQuoteResults {ρ α : Type} [Inhabited ρ] [Inhabited α]
    (quoteResults : List RawResult) (routes : List ρ) (amounts : List α) :
    List (V3RouteWithQuotes ρ α) :=
  let quotesResultsByRoute := chunkList amounts.length quoteResults
  mapWithIndex (fun i routeResults =>
    (routes.getD i default,
      mapWithIndex (fun index quoteResult =>
        quoteRecordOf (amounts.getD index default) quoteResult) routeResults))
    quotesResultsByRoute

/-- The per-call mutable locals of `getQuotesManyData` (lines 295-353):
the adjustable `multicallChunk` and `gasLimitOverride`, the pinned
`providerConfig.blockNumber`, the per-kind retry flags, counters, the
emitted metric names, and the batch state vector. -/
structure CallState where
  multicallChunk : Nat
  gasLimitOverride : Nat
  blockNumber : Nat
  haveRetriedForSuccessRate : Bool
  haveRetriedForBlockHeader : Bool
  blockHeaderRetryAttemptNumber : Option Nat
  blockHeaderRolledBack : Bool
  haveRetriedForBlockConflictError : Bool
  haveRetriedForOutOfGas : Bool
  haveRetriedForTimeout : Bool
  haveRetriedForUnknownReason : Bool
  totalCallsMade : Nat
  metrics : List String
  quoteStates : List QuoteBatchState
deriving DecidableEq

/-- Oracle for one `callSameFunctionOnContractWithMultipleParams` multicall:
either it resolves with a `BatchResults`, or it throws with a message. -/
inductive ExecResponse where
  | ok (res : BatchResults)
  | err (msg : List Char)
deriving DecidableEq

/-- The per-batch task body (lines 376-461): skip successful batches,
re-execute pending/failed ones, turning the aggregator response into
`Success`, a validator-rejected `Failed { SuccessRateError }`, or a
classified `Failed`. -/
def executeBatch (quoteMinSuccessRate : ℚ) (haveRetriedForSuccessRate : Bool)
    (numStates : Nat) (resp : ExecResponse) (idx : Nat)
    (quoteState : QuoteBatchState) : QuoteBatchState :=
  match quoteState with
  | .success i r => .success i r
  | quoteState =>
    let inputs := quoteState.inputs
    match resp with
    | .ok results =>
      match validateSuccessRate quoteMinSuccessRate results.results haveRetriedForSuccessRate with
      | some successRateError => .failed inputs successRateError (some results)
      | none => .success inputs results
    | .err msg => .failed inputs (classifyError idx numStates inputs.length msg) none

/-- `Promise.all(_.map(quoteStates, …))` of one attempt. -/
def executeAll (quoteMinSuccessRate : ℚ) (haveRetriedForSuccessRate : Bool)
    (resp : Nat → ExecResponse) (quoteStates : List QuoteBatchState) :
    List QuoteBatchState :=
  mapWithIndex
    (fun idx st => executeBatch quoteMinSuccessRate haveRetriedForSuccessRate
      quoteStates.length (resp idx) idx st)
    quoteStates

/-- JS truthiness of `blockHeaderRetryAttemptNumber` (`undefined` and `0`
are falsy). -/
def optTruthy : Option Nat → Bool
  | none => false
  | some n => n != 0

/-- One iteration of the `for (const failedQuoteState of failedQuoteStates)`
retry-controller loop (lines 496-589), acting on `(state, retryAll)`. -/
def processFailure (cfg : EngineConfig) (attemptNumber : Nat)
    (acc : CallState × Bool) (error : QuoteError) : CallState × Bool :=
  let st := acc.1
  let retryAll := acc.2
  match error with
  | .blockConflict _ =>
    let st :=
      if !st.haveRetriedForBlockConflictError then
        { st with metrics := st.metrics ++ ["QuoteBlockConflictErrorRetry"],
                  haveRetriedForBlockConflictError := true }
      else st
    (st, true)
  | .providerBlockHeader _ =>
    let st :=
      if !st.haveRetriedForBlockHeader then
        { st with metrics := st.metrics ++ ["QuoteBlockHeaderNotFoundRetry"],
                  haveRetriedForBlockHeader := true }
      else st
    if optTruthy st.blockHeaderRetryAttemptNumber
        && decide (st.blockHeaderRetryAttemptNumber.getD 0 < attemptNumber)
        && !st.blockHeaderRolledBack && cfg.rollback then
      ({ st with
           blockNumber :=
             if st.blockNumber ≠ 0 then st.blockNumber - 1
             else cfg.currentBlock - 1,
           blockHeaderRolledBack := true,
           blockHeaderRetryAttemptNumber := some attemptNumber },
       true)
    else
      ({ st with blockHeaderRetryAttemptNumber := some attemptNumber }, retryAll)
  | .providerTimeout _ =>
    let st :=
      if !st.haveRetriedForTimeout then
        { st with metrics := st.metrics ++ ["QuoteTimeoutRetry"],
                  haveRetriedForTimeout := true }
      else st
    (st, retryAll)
  | .providerGas _ =>
    let st :=
      if !st.haveRetriedForOutOfGas then
        { st with metrics := st.metrics ++ ["QuoteOutOfGasExceptionRetry"],
                  haveRetriedForOutOfGas := true }
      else st
    ({ st with gasLimitOverride := 1000000, multicallChunk := 140 }, retryAll)
  | .successRate _ =>
    if !st.haveRetriedForSuccessRate then
      ({ st with metrics := st.metrics ++ ["QuoteSuccessRateRetry"],
                 haveRetriedForSuccessRate := true,
                 gasLimitOverride := cfg.successRateFailureOverrides.gasLimitOverride,
                 multicallChunk := cfg.successRateFailureOverrides.multicallChunk },
       true)
    else (st, retryAll)
  | .unknown _ =>
    let st :=
      if !st.haveRetriedForUnknownReason then
        { st with metrics := st.metrics ++ ["QuoteUnknownReasonRetry"],
                  haveRetriedForUnknownReason := true }
      else st
    (st, retryAll)

/-- `stats.percentile(xs, 100)` of the per-batch gas figures. -/
def percentile100 (l : List Nat) : Nat := l.foldr max 0

/-- How one pass of the `retry` callback ends: the `Pending quote after
waiting for all promises.` throw, the `TypeError` of
`callResults[0]!.blockNumber` when no batch is successful, the
`Failed to get … quotes` throw (retried by `async-retry`), or a
successful return of the flat results. -/
inductive AttemptResult where
  | pendingAfterJoin
  | typeErrorNoSuccess
  | failedQuotes (reasons : List QuoteError)
  | done (results : List RawResult) (blockNumber : Nat) (approxGasUsedPerSuccessCall : Nat)
deriving DecidableEq

/-- `partitionQuotes` (lines 687-718): the `(success, failed, pending)`
filters of the batch-state vector. -/
def partitionQuotes (quoteStates : List QuoteBatchState) :
    List QuoteBatchState × List QuoteBatchState × List QuoteBatchState :=
  (quoteStates.filter (fun s => s.isSuccess),
   quoteStates.filter (fun s => s.isFailed),
   quoteStates.filter (fun s => s.isPending))

/-- The whole `for (const failedQuoteState of failedQuoteStates)` loop:
fold `processFailure` over the failure reasons, starting from the
`retryAll` the block-number validator produced. -/
def retryControllerFold (cfg : EngineConfig) (attemptNumber : Nat)
    (st : CallState) (retryAll : Bool) (reasons : List QuoteError) :
    CallState × Bool :=
  reasons.foldl (processFailure cfg attemptNumber) (st, retryAll)

/-- Lines 592-608: when `retryAll` is set, re-chunk the full input list
with the (possibly updated) `multicallChunk` and reset every batch to
`Pending`. -/
def applyRetryAll (inputs : List EncodedInput) (folded : CallState × Bool) :
    CallState :=
  if folded.2 then
    { folded.1 with quoteStates :=
        (chunkList (normalizedChunkOf inputs.length folded.1.multicallChunk)
          inputs).map .pending }
  else folded.1

/-- One pass of the `retry` callback (lines 360-628): execute all
non-successful batches, partition, validate block numbers, run the retry
controller over the failures, re-chunk everything when `retryAll`, then
either throw (a `failedQuotes`/`pendingAfterJoin`/`typeErrorNoSuccess`
outcome) or return the concatenated results of the successful batches.
`origChunkCount` is the outer `inputsChunked.length`, used only in the
block-conflict message. -/
def runAttempt (cfg : EngineConfig) (inputs : List EncodedInput)
    (origChunkCount : Nat) (resp : Nat → ExecResponse) (attemptNumber : Nat)
    (st : CallState) : CallState × AttemptResult :=
  let executed := executeAll cfg.batchParams.quoteMinSuccessRate
    st.haveRetriedForSuccessRate resp st.quoteStates
  let callsThisAttempt := (st.quoteStates.filter (fun s => !s.isSuccess)).length
  let st := { st with quoteStates := executed,
                      totalCallsMade := st.totalCallsMade + callsThisAttempt }
  let parts := partitionQuotes executed
  let successfulQuoteStates := parts.1
  let failedQuoteStates := parts.2.1
  let pendingQuoteStates := parts.2.2
  if pendingQuoteStates.length > 0 then (st, .pendingAfterJoin)
  else
    let blockNumberError := validateBlockNumbers
      (successfulQuoteStates.filterMap (fun s => s.resultsOf))
      origChunkCount st.gasLimitOverride
    let stRetry := retryControllerFold cfg attemptNumber st blockNumberError.isSome
      (failedQuoteStates.filterMap (fun s => s.reasonOf))
    let st := applyRetryAll inputs stRetry
    if failedQuoteStates.length > 0 then
      (st, .failedQuotes (failedQuoteStates.filterMap (fun s => s.reasonOf)))
    else
      match successfulQuoteStates.filterMap (fun s => s.resultsOf) with
      | [] => (st, .typeErrorNoSuccess)
      | r0 :: rest =>
        (st, .done ((r0 :: rest).flatMap (fun r => r.results)) r0.blockNumber
          (percentile100 ((r0 :: rest).map (fun r => r.approxGasUsedPerSuccessCall))))

/-- Outcome of the whole `retry(...)` expression. -/
inductive CallOutcome where
  | ok (results : List RawResult) (blockNumber : Nat) (approxGasUsedPerSuccessCall : Nat)
  | error (last : AttemptResult)
deriving DecidableEq

/-- The `async-retry` loop: run attempts, retrying any thrown attempt while
fuel remains; `attemptNumber` starts at 1.  Fuel is `retries + 1`, the
total number of attempts the policy allows. -/
def runLoop (cfg : EngineConfig) (inputs : List EncodedInput)
    (origChunkCount : Nat) (resp : Nat → Nat → ExecResponse) :
    Nat → Nat → CallState → CallState × CallOutcome
  | 0, _, st => (st, .error .pendingAfterJoin)
  | fuel + 1, attemptNumber, st =>
    let stepped := runAttempt cfg inputs origChunkCount (resp attemptNumber) attemptNumber st
    match stepped.2 with
    | .done results blockNumber gas => (stepped.1, .ok results blockNumber gas)
    | e =>
      if fuel = 0 then (stepped.1, .error e)
      else runLoop cfg inputs origChunkCount resp fuel (attemptNumber + 1) stepped.1

/-- What `getQuotesManyData` gives back on success:
`{ routesWithQuotes, blockNumber }`. -/
structure CallReturn (ρ α : Type) where
  routesWithQuotes : List (V3RouteWithQuotes ρ α)
  blockNumber : Nat
deriving DecidableEq

/-- The promise of `getQuotesManyData`: resolved, or rejected with the last
error the retry loop saw. -/
inductive CallResult (ρ α : Type) where
  | ok (value : CallReturn ρ α)
  | error (e : AttemptResult)
deriving DecidableEq

/-- The per-call locals as first initialised (lines 295-353): original
batch parameters, pinned block, all retry flags clear, every chunk
`Pending`. -/
def initialCallState (cfg : EngineConfig) (blockNumber : Nat)
    (inputsChunked : List (List EncodedInput)) : CallState :=
  { multicallChunk := cfg.batchParams.multicallChunk
    gasLimitOverride := cfg.batchParams.gasLimitPerCall
    blockNumber := blockNumber
    haveRetriedForSuccessRate := false
    haveRetriedForBlockHeader := false
    blockHeaderRetryAttemptNumber := none
    blockHeaderRolledBack := false
    haveRetriedForBlockConflictError := false
    haveRetriedForOutOfGas := false
    haveRetriedForTimeout := false
    haveRetriedForUnknownReason := false
    totalCallsMade := 0
    metrics := []
    quoteStates := inputsChunked.map .pending }

/-- The whole `retry(...)` call: pin the block, build and chunk the inputs,
and run the attempt loop from the initial state. -/
def callLoop {ρ α : Type} (cfg : EngineConfig) (amounts : List α)
    (routes : List ρ) (encodePath : ρ → Bool → String) (exactOut : Bool)
    (hexAmount : α → String) (pinnedBlockNumber : Option Nat)
    (resp : Nat → Nat → ExecResponse) : CallState × CallOutcome :=
  let blockNumber := pinnedBlockNumber.getD cfg.currentBlock
  let inputs := buildInputs routes amounts encodePath exactOut hexAmount
  let normalizedChunk := normalizedChunkOf inputs.length cfg.batchParams.multicallChunk
  let inputsChunked := chunkList normalizedChunk inputs
  runLoop cfg inputs inputsChunked.length resp (cfg.retries + 1) 1
    (initialCallState cfg blockNumber inputsChunked)

/-- `getQuotesManyData` (lines 286-685): pin the block, build and chunk the
inputs, run the retry loop, and on success assemble the per-route quote
records (appending the final metrics).  `resp attempt idx` is the
aggregator's behaviour for batch `idx` of attempt `attempt`. -/
def getQuotesManyData {ρ α : Type} [Inhabited ρ] [Inhabited α]
    (cfg : EngineConfig) (amounts : List α) (routes : List ρ)
    (encodePath : ρ → Bool → String) (exactOut : Bool) (hexAmount : α → String)
    (pinnedBlockNumber : Option Nat) (resp : Nat → Nat → ExecResponse) :
    CallState × CallResult ρ α :=
  let looped := callLoop cfg amounts routes encodePath exactOut hexAmount
    pinnedBlockNumber resp
  match looped.2 with
  | .ok quoteResults blockNumber _ =>
    ({ looped.1 with metrics := looped.1.metrics ++
        ["QuoteApproxGasUsedPerSuccessfulCall", "QuoteNumRetryLoops",
         "QuoteTotalCallsToProvider", "QuoteExpectedCallsToProvider",
         "QuoteNumRetriedCalls"] },
     .ok { routesWithQuotes := processQuoteResults quoteResults routes amounts
           blockNumber := blockNumber })
  | .error e => (looped.1, .error e)

/-- `getQuotesManyExactIn` — `functionName = 'quoteExactInput'`, so routes
are encoded forwards. -/
def getQuotesManyExactIn {ρ α : Type} [Inhabited ρ] [Inhabited α]
    (cfg : EngineConfig) (amountIns : List α) (routes : List ρ)
    (encodePath : ρ → Bool → String) (hexAmount : α → String)
    (pinnedBlockNumber : Option Nat) (resp : Nat → Nat → ExecResponse) :
    CallState × CallResult ρ α :=
  getQuotesManyData cfg amountIns routes encodePath false hexAmount pinnedBlockNumber resp

/-- `getQuotesManyExactOut` — `functionName = 'quoteExactOutput'`, so routes
are encoded reversed. -/
def getQuotesManyExactOut {ρ α : Type} [Inhabited ρ] [Inhabited α]
    (cfg : EngineConfig) (amountOuts : List α) (routes : List ρ)
    (encodePath : ρ → Bool → String) (hexAmount : α → String)
    (pinnedBlockNumber : Option Nat) (resp : Nat → Nat → ExecResponse) :
    CallState × CallResult ρ α :=
  getQuotesManyData cfg amountOuts routes encodePath true hexAmount pinnedBlockNumber resp

/-! Concrete data used to evaluate the engine at specific inputs. -/

/-- A seven-element encoded-input list (for the chunking counterexample). -/
def exampleInputs7 : List EncodedInput :=
  [("p", "0x1"), ("p", "0x2"), ("p", "0x3"), ("p", "0x4"), ("p", "0x5"),
   ("p", "0x6"), ("p", "0x7")]

/-- A small config: chunk size 1, a zero success-rate floor, default retry
budget 2, rollback disabled. -/
def exampleCfg : EngineConfig :=
  { batchParams := { multicallChunk := 1, gasLimitPerCall := 1000000,
                     quoteMinSuccessRate := 0 }
    successRateFailureOverrides := { multicallChunk := 110, gasLimitOverride := 1300000 }
    rollback := false
    retries := 2
    currentBlock := 100 }

/-- A single successful raw quote. -/
def exampleRawResult : RawResult :=
  { success := true, quote := 42, sqrtPriceX96AfterList := [1],
    initializedTicksCrossedList := [0], gasEstimate := 5 }

/-- Aggregator behaviour answering batch `idx` of every attempt with a
success sampled at block `100 + idx`: sibling batches disagree on height. -/
def exampleRespSplitBlocks : Nat → Nat → ExecResponse := fun _ idx =>
  .ok { blockNumber := 100 + idx, results := [exampleRawResult],
        approxGasUsedPerSuccessCall := 7 }

/-- A toy `encodeRouteToPath` for `ρ := Nat` routes. -/
def exampleEncodePath : Nat → Bool → String := fun r exactOut =>
  (if exactOut then "rev" else "fwd") ++ toString r

/-- A toy `amount.quotient.toString(16)` for `α := Nat` amounts. -/
def exampleHexAmount : Nat → String := fun a => toString a

/-- The two-routes / one-amount call against `exampleRespSplitBlocks`. -/
def exampleSplitBlocksCall : CallState × CallResult Nat Nat :=
  getQuotesManyData exampleCfg [10] [0, 1] exampleEncodePath false exampleHexAmount
    (some 100) exampleRespSplitBlocks

/-- The quote record that `exampleSplitBlocksCall` produces for each route. -/
def exampleQuoteRecord : V3AmountQuote Nat :=
  { amount := 10, quote := some 42, sqrtPriceX96AfterList := some [1],
    initializedTicksCrossedList := some [0], gasEstimate := some 5 }

/-- The initial pending batch vector of `exampleSplitBlocksCall`: two
one-input chunks. -/
def exampleSplitBlocksStates : List QuoteBatchState :=
  (chunkList (normalizedChunkOf 2 1)
    (buildInputs [0, 1] [10] exampleEncodePath false exampleHexAmount)).map .pending

/-- `getQuotesManyExactIn` with an empty routes list. -/
def exampleEmptyRoutesCall : CallState × CallResult Nat Nat :=
  getQuotesManyExactIn exampleCfg [10] ([] : List Nat) exampleEncodePath exampleHexAmount
    (some 100) exampleRespSplitBlocks

/-- `getQuotesManyExactOut` with an empty amounts list. -/
def exampleEmptyAmountsCall : CallState × CallResult Nat Nat :=
  getQuotesManyExactOut exampleCfg ([] : List Nat) [0, 1] exampleEncodePath exampleHexAmount
    (some 100) exampleRespSplitBlocks

/-- A fresh per-call state over the given batch vector (all retry flags
clear), as `getQuotesManyData` would build before its first attempt. -/
def exampleInitState (qs : List QuoteBatchState) : CallState :=
  { multicallChunk := 2, gasLimitOverride := 500000, blockNumber := 100,
    haveRetriedForSuccessRate := false, haveRetriedForBlockHeader := false,
    blockHeaderRetryAttemptNumber := none, blockHeaderRolledBack := false,
    haveRetriedForBlockConflictError := false, haveRetriedForOutOfGas := false,
    haveRetriedForTimeout := false, haveRetriedForUnknownReason := false,
    totalCallsMade := 0, metrics := [], quoteStates := qs }

/-- A config with a success-rate floor of 1, so any failed quote sinks the
batch below the floor. -/
def exampleSRCfg : EngineConfig :=
  { batchParams := { multicallChunk := 2, gasLimitPerCall := 1000000,
                     quoteMinSuccessRate := 1 }
    successRateFailureOverrides := { multicallChunk := 110, gasLimitOverride := 1300000 }
    rollback := false
    retries := 2
    currentBlock := 100 }

/-- An unsuccessful raw quote. -/
def exampleFailResult : RawResult :=
  { success := false, quote := 0, sqrtPriceX96AfterList := [],
    initializedTicksCrossedList := [], gasEstimate := 0 }

/-- Aggregator resolving with two unsuccessful per-input results. -/
def exampleSRResp : Nat → ExecResponse := fun _ =>
  .ok { blockNumber := 100, results := [exampleFailResult, exampleFailResult],
        approxGasUsedPerSuccessCall := 0 }

/-- Aggregator throwing a gas-exhaustion error. -/
def exampleGasResp : Nat → ExecResponse := fun _ =>
  .err "ran out of gas while executing".toList

/-- Aggregator throwing a missing-header error. -/
def exampleHeaderResp : Nat → ExecResponse := fun _ =>
  .err "header not found".toList

/-- `exampleCfg` with `rollback` enabled. -/
def exampleRollbackCfg : EngineConfig :=
  { exampleCfg with rollback := true }

/-- A state that already saw a header failure on attempt 1 and has not yet
rolled back. -/
def exampleHeaderState : CallState :=
  { exampleInitState [.pending [("p", "0x1")]] with
      blockHeaderRetryAttemptNumber := some 1 }

/-- A flat result vector for 2 routes × 2 amounts with one unsuccessful
entry (position `0·2 + 1`, route 0 / amount 1). -/
def exampleQuoteResults4 : List RawResult :=
  [{ success := true, quote := 11, sqrtPriceX96AfterList := [3],
     initializedTicksCrossedList := [1], gasEstimate := 9 },
   { success := false, quote := 0, sqrtPriceX96AfterList := [],
     initializedTicksCrossedList := [], gasEstimate := 0 },
   { success := true, quote := 22, sqrtPriceX96AfterList := [4],
     initializedTicksCrossedList := [2], gasEstimate := 8 },
   { success := true, quote := 33, sqrtPriceX96AfterList := [5],
     initializedTicksCrossedList := [0], gasEstimate := 7 }]

/-! ## Lemmas about the planner's chunking -/

theorem chunkListGo_nil {β : Type} (size fuel : Nat) :
    chunkListGo (β := β) size fuel [] = [] := by
  cases fuel <;> rfl

theorem mem_chunkListGo_length {β : Type} {size : Nat} (hsize : size ≠ 0) :
    ∀ (fuel : Nat) (l : List β), ∀ c ∈ chunkListGo size fuel l,
      1 ≤ c.length ∧ c.length ≤ size
  | 0, l => by simp [chunkListGo]
  | fuel + 1, [] => by simp [chunkListGo]
  | fuel + 1, b :: bs => by
    intro c hc
    simp only [chunkListGo] at hc
    rcases List.mem_cons.mp hc with rfl | hc
    · simp only [List.length_take, List.length_cons]
      omega
    · exact mem_chunkListGo_length hsize fuel _ c hc

theorem chunkListGo_flatten {β : Type} {size : Nat} (hsize : size ≠ 0) :
    ∀ (fuel : Nat) (l : List β), l.length ≤ fuel →
      (chunkListGo size fuel l).flatten = l
  | 0, l => by
    intro hl
    have : l = [] := List.length_eq_zero.mp (by omega)
    subst this
    simp [chunkListGo]
  | fuel + 1, [] => by simp [chunkListGo]
  | fuel + 1, b :: bs => by
    intro hl
    simp only [chunkListGo, List.flatten_cons]
    rw [chunkListGo_flatten hsize fuel _ ?_]
    · exact List.take_append_drop _ _
    · simp only [List.length_drop, List.length_cons] at hl ⊢
      omega

theorem chunkListGo_dropLast {β : Type} {size : Nat} (hsize : size ≠ 0) :
    ∀ (fuel : Nat) (l : List β), l.length ≤ fuel →
      ∀ c ∈ (chunkListGo size fuel l).dropLast, c.length = size
  | 0, l => by simp [chunkListGo]
  | fuel + 1, [] => by simp [chunkListGo]
  | fuel + 1, b :: bs => by
    intro hl c hc
    simp only [chunkListGo] at hc
    match hrest : chunkListGo size fuel ((b :: bs).drop size) with
    | [] =>
      rw [hrest] at hc
      simp at hc
    | r :: rs =>
      rw [hrest, List.dropLast_cons₂] at hc
      rcases List.mem_cons.mp hc with rfl | hc
      · have hdrop : (b :: bs).drop size ≠ [] := by
          intro h
          rw [h, chunkListGo_nil] at hrest
          exact (List.cons_ne_nil r rs) hrest.symm
        have : size < (b :: bs).length := by
          by_contra h
          exact hdrop (List.drop_eq_nil_of_le (by omega))
        simp only [List.length_take]
        omega
      · have hfuel : ((b :: bs).drop size).length ≤ fuel := by
          simp only [List.length_drop, List.length_cons] at hl ⊢
          omega
        have := chunkListGo_dropLast hsize fuel ((b :: bs).drop size) hfuel c
        rw [hrest] at this
        exact this hc

theorem chunkList_flatten {β : Type} {size : Nat} (hsize : size ≠ 0) (l : List β) :
    (chunkList size l).flatten = l := by
  rw [chunkList, if_neg hsize]
  exact chunkListGo_flatten hsize l.length l le_rfl

theorem mem_chunkList_length {β : Type} {size : Nat} (hsize : size ≠ 0)
    (l : List β) : ∀ c ∈ chunkList size l, 1 ≤ c.length ∧ c.length ≤ size := by
  rw [chunkList, if_neg hsize]
  exact mem_chunkListGo_length hsize l.length l

theorem chunkList_dropLast {β : Type} {size : Nat} (hsize : size ≠ 0)
    (l : List β) : ∀ c ∈ (chunkList size l).dropLast, c.length = size := by
  rw [chunkList, if_neg hsize]
  exact chunkListGo_dropLast hsize l.length l le_rfl

/-! ## Arithmetic of the normalized chunk size -/

theorem ceilDivJS_eq (a b : Nat) : ceilDivJS a b = a ⌈/⌉ b :=
  (Nat.ceilDiv_eq_add_pred_div a b).symm

theorem le_mul_ceilDivJS {a : Nat} (n : Nat) (ha : 0 < a) : n ≤ a * ceilDivJS n a := by
  rw [ceilDivJS_eq]
  simpa [smul_eq_mul] using le_smul_ceilDiv (b := n) ha

theorem ceilDivJS_pos {a n : Nat} (ha : 0 < a) (hn : 0 < n) : 0 < ceilDivJS n a := by
  rcases Nat.eq_zero_or_pos (ceilDivJS n a) with h | h
  · have := le_mul_ceilDivJS n ha
    rw [h, Nat.mul_zero] at this
    omega
  · exact h

theorem normalizedChunkOf_pos {n c : Nat} (hn : 1 ≤ n) (hc : 1 ≤ c) :
    1 ≤ normalizedChunkOf n c := by
  unfold normalizedChunkOf
  exact ceilDivJS_pos (ceilDivJS_pos hc hn) hn

theorem normalizedChunkOf_le {n c : Nat} (hn : 1 ≤ n) (hc : 1 ≤ c) :
    normalizedChunkOf n c ≤ c := by
  unfold normalizedChunkOf
  have hk : 0 < ceilDivJS n c := ceilDivJS_pos hc hn
  have hle : n ≤ c * ceilDivJS n c := le_mul_ceilDivJS n hc
  rw [ceilDivJS_eq, ceilDiv_le_iff_le_mul hk]
  calc n ≤ c * ceilDivJS n c := hle
    _ = ceilDivJS n c * c := Nat.mul_comm _ _

/-- C2.  The claim's chunk-evenness bound is false on the code: seven
inputs with `multicall_chunk = 3` give `num_chunks = 3`,
`normalized = 3`, and chunk sizes `[3, 3, 1]`, whose extremes differ
by `2 > 1`. -/
theorem claim_C2_counterexample :
    ((chunkList (normalizedChunkOf exampleInputs7.length 3) exampleInputs7).map
        List.length = [3, 3, 1]) ∧
    ¬ (∀ a ∈ (chunkList (normalizedChunkOf exampleInputs7.length 3) exampleInputs7).map
          List.length,
        ∀ b ∈ (chunkList (normalizedChunkOf exampleInputs7.length 3) exampleInputs7).map
          List.length, a - b ≤ 1) := by
  decide

/-- C2 (amended).  For every non-empty input list and positive
`multicall_chunk`, the planner splits the inputs into contiguous chunks of
size `normalized = ceil(N / ceil(N / multicall_chunk))` — concatenating the
chunks restores the inputs, every chunk except possibly the last has size
exactly `normalized`, the last is non-empty and no longer than
`normalized`, and every chunk is at most `multicall_chunk`.  (The claim's
further bound that the largest and smallest chunk differ by at most one is
refuted by `claim_C2_counterexample`.) -/
theorem claim_C2 (l : List EncodedInput) (multicallChunk : Nat)
    (hl : l ≠ []) (hc : 1 ≤ multicallChunk) :
    (chunkList (normalizedChunkOf l.length multicallChunk) l).flatten = l ∧
    (∀ c ∈ chunkList (normalizedChunkOf l.length multicallChunk) l,
      1 ≤ c.length ∧ c.length ≤ normalizedChunkOf l.length multicallChunk ∧
        c.length ≤ multicallChunk) ∧
    (∀ c ∈ (chunkList (normalizedChunkOf l.length multicallChunk) l).dropLast,
      c.length = normalizedChunkOf l.length multicallChunk) := by
  have hn : 1 ≤ l.length := by
    cases l with
    | nil => exact absurd rfl hl
    | cons a l => simp
  have hpos : normalizedChunkOf l.length multicallChunk ≠ 0 := by
    have := normalizedChunkOf_pos hn hc
    omega
  refine ⟨chunkList_flatten hpos l, ?_, chunkList_dropLast hpos l⟩
  intro c hcmem
  have hb := mem_chunkList_length hpos l c hcmem
  exact ⟨hb.1, hb.2, le_trans hb.2 (normalizedChunkOf_le hn hc)⟩

/-- Witness for `claim_C2` at the seven-input list with chunk 3. -/
theorem claim_C2_witness :
    (chunkList (normalizedChunkOf exampleInputs7.length 3) exampleInputs7).flatten =
        exampleInputs7 ∧
    (∀ c ∈ chunkList (normalizedChunkOf exampleInputs7.length 3) exampleInputs7,
      1 ≤ c.length ∧ c.length ≤ normalizedChunkOf exampleInputs7.length 3 ∧
        c.length ≤ 3) ∧
    (∀ c ∈ (chunkList (normalizedChunkOf exampleInputs7.length 3) exampleInputs7).dropLast,
      c.length = normalizedChunkOf exampleInputs7.length 3) :=
  claim_C2 exampleInputs7 3 (by decide) (by decide)

/-! ## The success-rate comparison -/

/-- The cross-multiplied comparison in `rateBelowJS` is the source's
`successRate < quoteMinSuccessRate` with `successRate = s / n`, for a
non-empty batch. -/
theorem rateBelowJS_iff {n : Nat} (s : Nat) (m : ℚ) (hn : n ≠ 0) :
    rateBelowJS s n m = true ↔ (s : ℚ) / n < m := by
  have hnQ : (0 : ℚ) < n := by exact_mod_cast Nat.pos_of_ne_zero hn
  have hdenQ : (0 : ℚ) < m.den := by exact_mod_cast m.den_pos
  have hkey : (m : ℚ) * (m.den : ℚ) = (m.num : ℚ) := by
    nth_rewrite 1 [← Rat.num_div_den m]
    exact div_mul_cancel₀ _ (ne_of_gt hdenQ)
  rw [rateBelowJS, if_neg hn, decide_eq_true_eq, div_lt_iff₀ hnQ]
  constructor
  · intro h
    have h' : (s : ℚ) * m.den < (m.num : ℚ) * n := by exact_mod_cast h
    rw [← hkey, mul_right_comm] at h'
    exact lt_of_mul_lt_mul_right h' (le_of_lt hdenQ)
  · intro h
    have h' : (s : ℚ) * m.den < m * n * m.den :=
      mul_lt_mul_of_pos_right h hdenQ
    rw [mul_right_comm, hkey] at h'
    exact_mod_cast h'

/-- C9.  `validateSuccessRate` on an empty results array: the success rate
is the JS float `0/0` (the `numResults = 0` branch of `rateBelowJS`), the
below-floor comparison on it is `false` for every threshold, and the
validator returns no error — an empty batch can never produce a
success-rate failure and the unguarded division never raises. -/
theorem claim_C9 (m : ℚ) (haveRetriedForSuccessRate : Bool) :
    ([] : List RawResult).length = 0 ∧
    (([] : List RawResult).filter (fun r => r.success)).length = 0 ∧
    rateBelowJS 0 0 m = false ∧
    validateSuccessRate m [] haveRetriedForSuccessRate = none :=
  ⟨rfl, rfl, rfl, rfl⟩

/-! ## Error classification -/

/-- C6.  The classification of a thrown aggregator error tests the message
for `"header not found"`, then `"timeout"`, then `"out of gas"`, in that
order, and otherwise yields the unknown kind; in every case the provider
message attached to the failure is the 500-character truncation
`msg.take 500`, whose length is at most 500. -/
theorem claim_C6 (idx numStates numInputs : Nat) (msg : List Char) :
    (listHasSub "header not found".toList msg = true →
      classifyError idx numStates numInputs msg =
        .providerBlockHeader (msg.take 500)) ∧
    (listHasSub "header not found".toList msg = false →
      listHasSub "timeout".toList msg = true →
      classifyError idx numStates numInputs msg =
        .providerTimeout (timeoutContext idx numStates numInputs ++ msg.take 500)) ∧
    (listHasSub "header not found".toList msg = false →
      listHasSub "timeout".toList msg = false →
      listHasSub "out of gas".toList msg = true →
      classifyError idx numStates numInputs msg = .providerGas (msg.take 500)) ∧
    (listHasSub "header not found".toList msg = false →
      listHasSub "timeout".toList msg = false →
      listHasSub "out of gas".toList msg = false →
      classifyError idx numStates numInputs msg =
        .unknown ("Unknown error from provider: ".toList ++ msg.take 500)) ∧
    (msg.take 500).length ≤ 500 := by
  refine ⟨fun h1 => ?_, fun h1 h2 => ?_, fun h1 h2 h3 => ?_, fun h1 h2 h3 => ?_, ?_⟩
  · simp_all [classifyError]
  · simp_all [classifyError]
  · simp_all [classifyError]
  · simp_all [classifyError]
  · simp only [List.length_take]
    exact min_le_left _ _

/-- Witness for `claim_C6`: a concrete timeout message, second in the
match order. -/
theorem claim_C6_witness :
    classifyError 2 3 5 "connection timeout after 10s".toList =
      .providerTimeout (timeoutContext 2 3 5 ++
        "connection timeout after 10s".toList.take 500) :=
  (claim_C6 2 3 5 "connection timeout after 10s".toList).2.1 (by decide) (by decide)

/-! ## The block-conflict return bug (C1) and the empty-input crash (C3) -/

/-- C1 fails on the code.  With two batches that both succeed but report
blocks `100` and `101`, `validateBlockNumbers` produces a
`BlockConflictError` and the batch vector is reset to `Pending` — but the
`Failed to get … quotes` throw is guarded by `failedQuoteStates.length > 0`,
which is `0` here, so the call returns the mixed-height results with
`blockNumber = 100` (the first batch's height) instead of retrying. -/
theorem claim_C1_code_bug :
    exampleSplitBlocksCall.2 =
      .ok { routesWithQuotes := [(0, [exampleQuoteRecord]), (1, [exampleQuoteRecord])],
            blockNumber := 100 } ∧
    ((executeAll exampleCfg.batchParams.quoteMinSuccessRate false
        (exampleRespSplitBlocks 1) exampleSplitBlocksStates).filterMap
        (fun s => s.resultsOf)).map (fun r => r.blockNumber) = [100, 101] ∧
    (validateBlockNumbers
        ((executeAll exampleCfg.batchParams.quoteMinSuccessRate false
          (exampleRespSplitBlocks 1) exampleSplitBlocksStates).filterMap
          (fun s => s.resultsOf)) 2 1000000).isSome = true ∧
    exampleSplitBlocksCall.1.quoteStates = exampleSplitBlocksStates := by
  refine ⟨?_, ?_, ?_, ?_⟩ <;> decide

/-- C3 fails on the code.  With empty routes (or empty amounts) no
aggregator call is ever issued (`totalCallsMade = 0`), but instead of
returning an empty `routesWithQuotes`, each attempt reaches
`callResults[0]!.blockNumber` with `callResults = []` — the `TypeError`
modelled by `typeErrorNoSuccess` — and the call rejects after the retry
budget. -/
theorem claim_C3_code_bug :
    (exampleEmptyRoutesCall.2 = .error .typeErrorNoSuccess ∧
      exampleEmptyRoutesCall.1.totalCallsMade = 0 ∧
      exampleEmptyRoutesCall.1.quoteStates = []) ∧
    (exampleEmptyAmountsCall.2 = .error .typeErrorNoSuccess ∧
      exampleEmptyAmountsCall.1.totalCallsMade = 0 ∧
      exampleEmptyAmountsCall.1.quoteStates = []) := by
  refine ⟨⟨?_, ?_, ?_⟩, ⟨?_, ?_, ?_⟩⟩ <;> decide

/-! ## Index lemmas for the positional layout -/

theorem length_mapWithIndexFrom {β γ : Type} (f : Nat → β → γ) :
    ∀ (k : Nat) (l : List β), (mapWithIndexFrom f k l).length = l.length
  | _, [] => rfl
  | k, _ :: bs => by
    simp only [mapWithIndexFrom, List.length_cons]
    rw [length_mapWithIndexFrom f (k + 1) bs]

theorem getElem?_mapWithIndexFrom {β γ : Type} (f : Nat → β → γ) :
    ∀ (k : Nat) (l : List β) (i : Nat),
      (mapWithIndexFrom f k l)[i]? = (l[i]?).map (f (k + i))
  | _, [], i => by simp [mapWithIndexFrom]
  | k, b :: bs, 0 => by simp [mapWithIndexFrom]
  | k, b :: bs, i + 1 => by
    simp only [mapWithIndexFrom, List.getElem?_cons_succ]
    rw [getElem?_mapWithIndexFrom f (k + 1) bs i]
    have h : k + 1 + i = k + (i + 1) := by omega
    rw [h]

theorem length_mapWithIndex {β γ : Type} (f : Nat → β → γ) (l : List β) :
    (mapWithIndex f l).length = l.length :=
  length_mapWithIndexFrom f 0 l

theorem getElem?_mapWithIndex {β γ : Type} (f : Nat → β → γ) (l : List β) (i : Nat) :
    (mapWithIndex f l)[i]? = (l[i]?).map (f i) := by
  rw [mapWithIndex, getElem?_mapWithIndexFrom f 0 l i, Nat.zero_add]

/-- When the input length is an exact multiple `R * A`, `_.chunk` yields the
`R` slices `[i*A, (i+1)*A)`. -/
theorem chunkListGo_exact {β : Type} {A : Nat} (hA : A ≠ 0) :
    ∀ (R : Nat) (l : List β) (fuel : Nat), l.length = R * A → l.length ≤ fuel →
      chunkListGo A fuel l = (List.range R).map (fun i => (l.drop (i * A)).take A)
  | 0, l, fuel => by
    intro hl _
    have hnil : l = [] := List.length_eq_zero.mp (by omega)
    subst hnil
    simp [chunkListGo_nil]
  | R + 1, l, fuel => by
    intro hl hfuel
    have hApos : 1 ≤ A := Nat.pos_of_ne_zero hA
    have hlen : l.length = R * A + A := by rw [hl, Nat.succ_mul]
    have hlpos : 1 ≤ l.length := by
      rw [hlen]
      exact le_trans hApos (Nat.le_add_left A (R * A))
    match l, fuel with
    | [], _ => simp at hlpos
    | b :: bs, 0 => simp at hfuel
    | b :: bs, f + 1 =>
      simp only [List.length_cons] at hlen hfuel
      simp only [chunkListGo]
      rw [List.range_succ_eq_map, List.map_cons]
      congr 1
      · simp
      · rw [chunkListGo_exact hA R ((b :: bs).drop A) f ?_ ?_]
        · rw [List.map_map]
          apply List.map_congr_left
          intro i _
          simp only [Function.comp_apply]
          rw [List.drop_drop]
          have h : A + i * A = Nat.succ i * A := by
            rw [Nat.succ_mul, Nat.add_comm]
          rw [h]
        · rw [List.length_drop, List.length_cons, hlen]
          simp
        · rw [List.length_drop, List.length_cons]
          omega

theorem chunkList_exact {β : Type} {A R : Nat} (hA : A ≠ 0) (l : List β)
    (hl : l.length = R * A) :
    chunkList A l = (List.range R).map (fun i => (l.drop (i * A)).take A) := by
  rw [chunkList, if_neg hA]
  exact chunkListGo_exact hA R l l.length hl le_rfl

theorem buildInputs_length {ρ α : Type} (routes : List ρ) (amounts : List α)
    (encodePath : ρ → Bool → String) (exactOut : Bool) (hexAmount : α → String) :
    (buildInputs routes amounts encodePath exactOut hexAmount).length =
      routes.length * amounts.length := by
  induction routes with
  | nil => simp [buildInputs]
  | cons q qs ih =>
    simp only [buildInputs, List.flatMap_cons, List.length_append, List.length_map,
      List.length_cons] at ih ⊢
    rw [ih]
    ring

theorem buildInputs_getElem {ρ α : Type} (amounts : List α)
    (encodePath : ρ → Bool → String) (exactOut : Bool) (hexAmount : α → String) :
    ∀ (routes : List ρ) (r a : Nat), a < amounts.length →
      (buildInputs routes amounts encodePath exactOut hexAmount)[r * amounts.length + a]? =
        (routes[r]?).bind (fun route => (amounts[a]?).map (fun amount =>
          (encodePath route exactOut, "0x" ++ hexAmount amount)))
  | [], r, a => by
    intro _
    simp [buildInputs]
  | q :: qs, 0, a => by
    intro ha
    simp only [buildInputs, List.flatMap_cons, Nat.zero_mul, Nat.zero_add,
      List.getElem?_cons_zero, Option.some_bind]
    rw [List.getElem?_append, if_pos (by simpa using ha), List.getElem?_map]
  | q :: qs, r + 1, a => by
    intro ha
    simp only [buildInputs, List.flatMap_cons, List.getElem?_cons_succ]
    have hidx : (r + 1) * amounts.length + a =
        amounts.length + (r * amounts.length + a) := by ring
    rw [hidx, List.getElem?_append_right (by
      simp only [List.length_map]
      exact Nat.le_add_right _ _)]
    simp only [List.length_map, Nat.add_sub_cancel_left]
    exact buildInputs_getElem amounts encodePath exactOut hexAmount qs r a ha

/-- C7.  For `R` routes and `A ≥ 1` amounts: the flat input vector has
length `R × A` and its entry `r·A + a` is route `r`'s encoded path paired
with amount `a`'s hex encoding (route-major, amount-minor); on a flat
result vector of length `R × A` the assembler returns `R` pairs in input
route order, pair `i` carrying `routes[i]` with `A` records in input amount
order, record `j` being `quoteRecordOf amounts[j] results[i·A + j]`; and an
unsuccessful raw result yields a record whose `quote`,
`sqrtPriceX96AfterList`, `initializedTicksCrossedList` and `gasEstimate`
are all null while the amount is retained. -/
theorem claim_C7 {ρ α : Type} [Inhabited ρ] [Inhabited α]
    (routes : List ρ) (amounts : List α) (encodePath : ρ → Bool → String)
    (exactOut : Bool) (hexAmount : α → String) (quoteResults : List RawResult)
    (hq : quoteResults.length = routes.length * amounts.length)
    (hA : amounts ≠ []) :
    (buildInputs routes amounts encodePath exactOut hexAmount).length =
      routes.length * amounts.length ∧
    (∀ r a, r < routes.length → a < amounts.length →
      (buildInputs routes amounts encodePath exactOut hexAmount)[r * amounts.length + a]? =
        some (encodePath (routes.getD r default) exactOut,
          "0x" ++ hexAmount (amounts.getD a default))) ∧
    (processQuoteResults quoteResults routes amounts).length = routes.length ∧
    (∀ i, i < routes.length →
      (processQuoteResults quoteResults routes amounts)[i]? =
        some (routes.getD i default,
          mapWithIndex (fun j res => quoteRecordOf (amounts.getD j default) res)
            ((quoteResults.drop (i * amounts.length)).take amounts.length))) ∧
    (∀ i, i < routes.length → ∀ (quotes : List (V3AmountQuote α)),
      (processQuoteResults quoteResults routes amounts)[i]? =
          some (routes.getD i default, quotes) →
      quotes.length = amounts.length ∧
      ∀ j, j < amounts.length →
        quotes[j]? = (quoteResults[i * amounts.length + j]?).map
          (quoteRecordOf (amounts.getD j default))) ∧
    (∀ (amount : α) (res : RawResult), res.success = false →
      quoteRecordOf amount res =
        { amount := amount, quote := none, sqrtPriceX96AfterList := none,
          initializedTicksCrossedList := none, gasEstimate := none }) := by
  have hAlen : amounts.length ≠ 0 := by
    cases amounts with
    | nil => exact absurd rfl hA
    | cons a as => simp
  have hchunks := chunkList_exact (A := amounts.length) (R := routes.length)
    hAlen quoteResults hq
  have hproc : processQuoteResults quoteResults routes amounts =
      mapWithIndex (fun i routeResults => (routes.getD i default,
        mapWithIndex (fun j res => quoteRecordOf (amounts.getD j default) res) routeResults))
        ((List.range routes.length).map
          (fun i => (quoteResults.drop (i * amounts.length)).take amounts.length)) := by
    rw [processQuoteResults, hchunks]
  refine ⟨buildInputs_length routes amounts encodePath exactOut hexAmount,
    ?_, ?_, ?_, ?_, ?_⟩
  · intro r a hr ha
    rw [buildInputs_getElem amounts encodePath exactOut hexAmount routes r a ha,
      List.getElem?_eq_getElem hr, List.getElem?_eq_getElem ha,
      List.getD_eq_getElem routes default hr, List.getD_eq_getElem amounts default ha]
    rfl
  · rw [hproc, length_mapWithIndex, List.length_map, List.length_range]
  · intro i hi
    rw [hproc, getElem?_mapWithIndex, List.getElem?_map, List.getElem?_range hi]
    rfl
  · intro i hi quotes hquotes
    rw [hproc, getElem?_mapWithIndex, List.getElem?_map, List.getElem?_range hi] at hquotes
    simp only [Option.map_some'] at hquotes
    have hq2 : quotes = mapWithIndex
        (fun j res => quoteRecordOf (amounts.getD j default) res)
        ((quoteResults.drop (i * amounts.length)).take amounts.length) := by
      have hpair := Option.some.inj hquotes
      exact ((Prod.mk.injEq _ _ _ _).mp hpair).2.symm
    subst hq2
    constructor
    · rw [length_mapWithIndex, List.length_take, List.length_drop, hq]
      have h1 : i * amounts.length + amounts.length ≤ routes.length * amounts.length := by
        calc i * amounts.length + amounts.length
            = (i + 1) * amounts.length := (Nat.succ_mul i amounts.length).symm
          _ ≤ routes.length * amounts.length := Nat.mul_le_mul_right amounts.length hi
      have h2 : amounts.length ≤ routes.length * amounts.length - i * amounts.length :=
        Nat.le_sub_of_add_le (by rw [Nat.add_comm]; exact h1)
      exact inf_eq_left.mpr h2
    · intro j hj
      rw [getElem?_mapWithIndex, List.getElem?_take, if_pos hj, List.getElem?_drop]
  · intro amount res h
    simp [quoteRecordOf, h]

/-- Witness for `claim_C7`: 2 routes × 2 amounts with 4 flat results. -/
theorem claim_C7_witness :
    (processQuoteResults exampleQuoteResults4 [5, 6] ([10, 20] : List Nat)).length = 2 :=
  (claim_C7 [5, 6] [10, 20] exampleEncodePath false exampleHexAmount
    exampleQuoteResults4 (by decide) (by decide)).2.2.1

/-! ## Anatomy of one attempt: the executor -/

theorem mem_mapWithIndexFrom {β γ : Type} (f : Nat → β → γ) :
    ∀ (k : Nat) (l : List β) (c : γ), c ∈ mapWithIndexFrom f k l →
      ∃ i b, b ∈ l ∧ c = f i b
  | k, [], c => by simp [mapWithIndexFrom]
  | k, b :: bs, c => by
    intro hc
    simp only [mapWithIndexFrom, List.mem_cons] at hc
    rcases hc with rfl | hc
    · exact ⟨k, b, List.mem_cons_self b bs, rfl⟩
    · obtain ⟨i, b', hb', rfl⟩ := mem_mapWithIndexFrom f (k + 1) bs _ hc
      exact ⟨i, b', List.mem_cons_of_mem b hb', rfl⟩

theorem validateSuccessRate_some {m : ℚ} {results : List RawResult} {h : Bool}
    {e : QuoteError} (he : validateSuccessRate m results h = some e) :
    e = .successRate "Quote success rate below threshold".toList := by
  simp only [validateSuccessRate] at he
  split at he
  · split at he
    · exact absurd he (by simp)
    · exact (Option.some.inj he).symm
  · exact absurd he (by simp)

theorem validateSuccessRate_retried (m : ℚ) (results : List RawResult) :
    validateSuccessRate m results true = none := by
  simp only [validateSuccessRate]
  split <;> rfl

theorem classifyError_kind (idx n k : Nat) (msg : List Char) :
    (classifyError idx n k msg).isBlockConflict = false ∧
    (classifyError idx n k msg).isSuccessRate = false := by
  unfold classifyError
  split
  · exact ⟨rfl, rfl⟩
  · split
    · exact ⟨rfl, rfl⟩
    · split
      · exact ⟨rfl, rfl⟩
      · exact ⟨rfl, rfl⟩

theorem executeBatch_success (m : ℚ) (h : Bool) (n : Nat) (resp : ExecResponse)
    (idx : Nat) (i : List EncodedInput) (r : BatchResults) :
    executeBatch m h n resp idx (.success i r) = .success i r := rfl

theorem executeBatch_inputs (m : ℚ) (h : Bool) (n : Nat) (resp : ExecResponse)
    (idx : Nat) (st : QuoteBatchState) :
    (executeBatch m h n resp idx st).inputs = st.inputs := by
  cases st with
  | success i r => rfl
  | pending i =>
    cases resp with
    | ok res =>
      simp only [executeBatch]
      cases validateSuccessRate m res.results h <;> rfl
    | err msg => rfl
  | failed i r o =>
    cases resp with
    | ok res =>
      simp only [executeBatch]
      cases validateSuccessRate m res.results h <;> rfl
    | err msg => rfl

theorem executeBatch_not_pending (m : ℚ) (h : Bool) (n : Nat)
    (resp : ExecResponse) (idx : Nat) (st : QuoteBatchState) :
    (executeBatch m h n resp idx st).isPending = false := by
  cases st with
  | success i r => rfl
  | pending i =>
    cases resp with
    | ok res =>
      simp only [executeBatch]
      cases validateSuccessRate m res.results h <;> rfl
    | err msg => rfl
  | failed i r o =>
    cases resp with
    | ok res =>
      simp only [executeBatch]
      cases validateSuccessRate m res.results h <;> rfl
    | err msg => rfl

/-- Every reason attached by the executor is a validator success-rate error
or a classified provider error — never a block conflict. -/
theorem executeBatch_reason (m : ℚ) (h : Bool) (n : Nat) (resp : ExecResponse)
    (idx : Nat) (st : QuoteBatchState) {e : QuoteError}
    (he : (executeBatch m h n resp idx st).reasonOf = some e) :
    e.isBlockConflict = false := by
  cases st with
  | success i r => exact absurd he (by simp [executeBatch, QuoteBatchState.reasonOf])
  | pending i =>
    cases resp with
    | ok res =>
      simp only [executeBatch] at he
      cases hv : validateSuccessRate m res.results h with
      | none => rw [hv] at he; exact absurd he (by simp [QuoteBatchState.reasonOf])
      | some e' =>
        rw [hv] at he
        simp only [QuoteBatchState.reasonOf] at he
        rw [← Option.some.inj he, validateSuccessRate_some hv]
        rfl
    | err msg =>
      simp only [executeBatch, QuoteBatchState.reasonOf] at he
      rw [← Option.some.inj he]
      exact (classifyError_kind idx n _ msg).1
  | failed i r o =>
    cases resp with
    | ok res =>
      simp only [executeBatch] at he
      cases hv : validateSuccessRate m res.results h with
      | none => rw [hv] at he; exact absurd he (by simp [QuoteBatchState.reasonOf])
      | some e' =>
        rw [hv] at he
        simp only [QuoteBatchState.reasonOf] at he
        rw [← Option.some.inj he, validateSuccessRate_some hv]
        rfl
    | err msg =>
      simp only [executeBatch, QuoteBatchState.reasonOf] at he
      rw [← Option.some.inj he]
      exact (classifyError_kind idx n _ msg).1

theorem executeAll_filter_pending (m : ℚ) (h : Bool) (resp : Nat → ExecResponse)
    (states : List QuoteBatchState) :
    (executeAll m h resp states).filter (fun s => s.isPending) = [] := by
  apply List.filter_eq_nil_iff.mpr
  intro s hs
  obtain ⟨i, b, _, rfl⟩ := mem_mapWithIndexFrom _ 0 states s hs
  simp [executeBatch_not_pending]

/-- Executor reasons in the whole vector are never block conflicts. -/
theorem executeAll_reason (m : ℚ) (h : Bool) (resp : Nat → ExecResponse)
    (states : List QuoteBatchState) {s : QuoteBatchState} {e : QuoteError}
    (hs : s ∈ executeAll m h resp states) (he : s.reasonOf = some e) :
    e.isBlockConflict = false := by
  obtain ⟨i, b, _, rfl⟩ := mem_mapWithIndexFrom _ 0 states s hs
  exact executeBatch_reason _ _ _ _ _ _ he

/-! ## Anatomy of one attempt: the retry controller, one failure at a time -/

theorem processFailure_quoteStates (cfg : EngineConfig) (n : Nat)
    (acc : CallState × Bool) (e : QuoteError) :
    (processFailure cfg n acc e).1.quoteStates = acc.1.quoteStates := by
  cases e <;> simp only [processFailure] <;> (repeat' split) <;> rfl

theorem processFailure_retryAll_mono (cfg : EngineConfig) (n : Nat)
    (acc : CallState × Bool) (e : QuoteError) (h : acc.2 = true) :
    (processFailure cfg n acc e).2 = true := by
  cases e <;> simp only [processFailure] <;> (repeat' split) <;>
    first
      | rfl
      | exact h

theorem processFailure_srFlag_mono (cfg : EngineConfig) (n : Nat)
    (acc : CallState × Bool) (e : QuoteError)
    (h : acc.1.haveRetriedForSuccessRate = true) :
    (processFailure cfg n acc e).1.haveRetriedForSuccessRate = true := by
  cases e <;> simp only [processFailure] <;> (repeat' split) <;>
    first
      | rfl
      | exact h

theorem processFailure_gas_fields (cfg : EngineConfig) (n : Nat)
    (acc : CallState × Bool) (msg : List Char) :
    (processFailure cfg n acc (.providerGas msg)).1.gasLimitOverride = 1000000 ∧
    (processFailure cfg n acc (.providerGas msg)).1.multicallChunk = 140 ∧
    (processFailure cfg n acc (.providerGas msg)).2 = acc.2 := by
  refine ⟨?_, ?_, ?_⟩ <;> simp only [processFailure] <;> split <;> rfl

theorem processFailure_successRate_retried (cfg : EngineConfig) (n : Nat)
    (acc : CallState × Bool) (msg : List Char)
    (h : acc.1.haveRetriedForSuccessRate = true) :
    processFailure cfg n acc (.successRate msg) = acc := by
  simp only [processFailure, h]
  rfl

theorem processFailure_successRate_first (cfg : EngineConfig) (n : Nat)
    (acc : CallState × Bool) (msg : List Char)
    (h : acc.1.haveRetriedForSuccessRate = false) :
    processFailure cfg n acc (.successRate msg) =
      ({ acc.1 with
           metrics := acc.1.metrics ++ ["QuoteSuccessRateRetry"],
           haveRetriedForSuccessRate := true,
           gasLimitOverride := cfg.successRateFailureOverrides.gasLimitOverride,
           multicallChunk := cfg.successRateFailureOverrides.multicallChunk },
       true) := by
  simp only [processFailure, h]
  rfl

/-- A failure step either leaves the pinned block and the rollback flag
unchanged, or (only from a false rollback flag) flips the flag and
replaces the block by the rolled-back value, also forcing `retryAll`. -/
theorem processFailure_blockDyn (cfg : EngineConfig) (n : Nat)
    (acc : CallState × Bool) (e : QuoteError) :
    ((processFailure cfg n acc e).1.blockNumber = acc.1.blockNumber ∧
     (processFailure cfg n acc e).1.blockHeaderRolledBack =
       acc.1.blockHeaderRolledBack) ∨
    (acc.1.blockHeaderRolledBack = false ∧
     (processFailure cfg n acc e).1.blockHeaderRolledBack = true ∧
     (processFailure cfg n acc e).2 = true ∧
     (processFailure cfg n acc e).1.blockNumber =
       (if acc.1.blockNumber ≠ 0 then acc.1.blockNumber - 1
        else cfg.currentBlock - 1)) := by
  cases e with
  | providerBlockHeader msg =>
    simp only [processFailure]
    split
    · split
      · next hfire =>
        right
        simp only [Bool.and_eq_true, Bool.not_eq_true'] at hfire
        exact ⟨hfire.1.2, rfl, rfl, rfl⟩
      · exact Or.inl ⟨rfl, rfl⟩
    · split
      · next hfire =>
        right
        simp only [Bool.and_eq_true, Bool.not_eq_true'] at hfire
        exact ⟨hfire.1.2, rfl, rfl, rfl⟩
      · exact Or.inl ⟨rfl, rfl⟩
  | blockConflict msg => left; constructor <;> (simp only [processFailure]; split <;> rfl)
  | successRate msg => left; constructor <;> (simp only [processFailure]; split <;> rfl)
  | providerTimeout msg => left; constructor <;> (simp only [processFailure]; split <;> rfl)
  | providerGas msg => left; constructor <;> (simp only [processFailure]; split <;> rfl)
  | unknown msg => left; constructor <;> (simp only [processFailure]; split <;> rfl)

theorem processFailure_rolled_true (cfg : EngineConfig) (n : Nat)
    (acc : CallState × Bool) (e : QuoteError)
    (h : acc.1.blockHeaderRolledBack = true) :
    (processFailure cfg n acc e).1.blockNumber = acc.1.blockNumber ∧
    (processFailure cfg n acc e).1.blockHeaderRolledBack = true := by
  rcases processFailure_blockDyn cfg n acc e with ⟨h1, h2⟩ | ⟨h1, _, _, _⟩
  · exact ⟨h1, h2.trans h⟩
  · rw [h] at h1
    exact absurd h1 (by simp)

/-- Non-header failures do not touch the header-retry bookkeeping. -/
theorem processFailure_nonheader (cfg : EngineConfig) (n : Nat)
    (acc : CallState × Bool) (e : QuoteError) (h : e.isBlockHeader = false) :
    (processFailure cfg n acc e).1.blockNumber = acc.1.blockNumber ∧
    (processFailure cfg n acc e).1.blockHeaderRolledBack =
      acc.1.blockHeaderRolledBack ∧
    (processFailure cfg n acc e).1.blockHeaderRetryAttemptNumber =
      acc.1.blockHeaderRetryAttemptNumber := by
  cases e <;> simp [QuoteError.isBlockHeader] at h <;>
    refine ⟨?_, ?_, ?_⟩ <;> simp only [processFailure] <;> (repeat' split) <;> rfl

/-- The header arm with the rollback guard satisfied: pinned block rolled
back, `block_rolled_back` set, `retryAll` forced. -/
theorem processFailure_header_fires (cfg : EngineConfig) (n : Nat)
    (acc : CallState × Bool) (msg : List Char) (k : Nat)
    (hk : acc.1.blockHeaderRetryAttemptNumber = some k) (hk0 : k ≠ 0)
    (hkn : k < n) (hrb : acc.1.blockHeaderRolledBack = false)
    (hro : cfg.rollback = true) :
    (processFailure cfg n acc (.providerBlockHeader msg)).1.blockNumber =
      (if acc.1.blockNumber ≠ 0 then acc.1.blockNumber - 1
       else cfg.currentBlock - 1) ∧
    (processFailure cfg n acc (.providerBlockHeader msg)).1.blockHeaderRolledBack =
      true ∧
    (processFailure cfg n acc (.providerBlockHeader msg)).2 = true := by
  simp only [processFailure]
  split
  · rw [if_pos (by simp [optTruthy, hk, hk0, hkn, hrb, hro])]
    exact ⟨rfl, rfl, rfl⟩
  · rw [if_pos (by simp [optTruthy, hk, hk0, hkn, hrb, hro])]
    exact ⟨rfl, rfl, rfl⟩

/-- Non-conflict failures never touch the `BlockConflict` retry flag or
emit its metric. -/
theorem processFailure_conflictFree (cfg : EngineConfig) (n : Nat)
    (acc : CallState × Bool) (e : QuoteError) (h : e.isBlockConflict = false) :
    (processFailure cfg n acc e).1.haveRetriedForBlockConflictError =
      acc.1.haveRetriedForBlockConflictError ∧
    ("QuoteBlockConflictErrorRetry" ∈ (processFailure cfg n acc e).1.metrics ↔
      "QuoteBlockConflictErrorRetry" ∈ acc.1.metrics) := by
  cases e <;> simp [QuoteError.isBlockConflict] at h <;>
    constructor <;> simp only [processFailure] <;> (repeat' split) <;>
    simp [List.mem_append]

/-! ## Anatomy of one attempt: the controller fold -/

theorem foldFailures_quoteStates (cfg : EngineConfig) (n : Nat) :
    ∀ (reasons : List QuoteError) (acc : CallState × Bool),
      (reasons.foldl (processFailure cfg n) acc).1.quoteStates =
        acc.1.quoteStates
  | [], _ => rfl
  | r :: rs, acc => by
    rw [List.foldl_cons, foldFailures_quoteStates cfg n rs _,
      processFailure_quoteStates]

theorem foldFailures_retryAll_mono (cfg : EngineConfig) (n : Nat) :
    ∀ (reasons : List QuoteError) (acc : CallState × Bool), acc.2 = true →
      (reasons.foldl (processFailure cfg n) acc).2 = true
  | [], _ => fun h => h
  | r :: rs, acc => fun h => by
    rw [List.foldl_cons]
    exact foldFailures_retryAll_mono cfg n rs _
      (processFailure_retryAll_mono cfg n acc r h)

theorem foldFailures_rolled_true (cfg : EngineConfig) (n : Nat) :
    ∀ (reasons : List QuoteError) (acc : CallState × Bool),
      acc.1.blockHeaderRolledBack = true →
      (reasons.foldl (processFailure cfg n) acc).1.blockNumber =
        acc.1.blockNumber ∧
      (reasons.foldl (processFailure cfg n) acc).1.blockHeaderRolledBack = true
  | [], _ => fun h => ⟨rfl, h⟩
  | r :: rs, acc => fun h => by
    rw [List.foldl_cons]
    obtain ⟨h1, h2⟩ := processFailure_rolled_true cfg n acc r h
    obtain ⟨h3, h4⟩ := foldFailures_rolled_true cfg n rs _ h2
    exact ⟨h3.trans h1, h4⟩

/-- The controller fold either leaves the pinned block and the rollback
flag unchanged, or rolls the block back exactly once (flipping the flag
from false to true and forcing `retryAll`). -/
theorem foldFailures_blockDyn (cfg : EngineConfig) (n : Nat) :
    ∀ (reasons : List QuoteError) (acc : CallState × Bool),
      ((reasons.foldl (processFailure cfg n) acc).1.blockNumber =
          acc.1.blockNumber ∧
        (reasons.foldl (processFailure cfg n) acc).1.blockHeaderRolledBack =
          acc.1.blockHeaderRolledBack) ∨
      (acc.1.blockHeaderRolledBack = false ∧
        (reasons.foldl (processFailure cfg n) acc).1.blockHeaderRolledBack = true ∧
        (reasons.foldl (processFailure cfg n) acc).2 = true ∧
        (reasons.foldl (processFailure cfg n) acc).1.blockNumber =
          (if acc.1.blockNumber ≠ 0 then acc.1.blockNumber - 1
           else cfg.currentBlock - 1))
  | [], _ => Or.inl ⟨rfl, rfl⟩
  | r :: rs, acc => by
    rw [List.foldl_cons]
    rcases processFailure_blockDyn cfg n acc r with ⟨h1, h2⟩ | ⟨h1, h2, h3, h4⟩
    · rcases foldFailures_blockDyn cfg n rs (processFailure cfg n acc r) with
        ⟨g1, g2⟩ | ⟨g1, g2, g3, g4⟩
      · exact Or.inl ⟨g1.trans h1, g2.trans h2⟩
      · right
        refine ⟨(h2.symm.trans g1), g2, g3, ?_⟩
        rw [g4, h1]
    · obtain ⟨g1, g2⟩ := foldFailures_rolled_true cfg n rs _ h2
      right
      exact ⟨h1, g2, foldFailures_retryAll_mono cfg n rs _ h3, g1.trans h4⟩

/-- All-out-of-gas failures: `retryAll` untouched, and once there is at
least one of them the gas limit drops to `1,000,000` and the chunk size
to `140`. -/
theorem foldFailures_gas (cfg : EngineConfig) (n : Nat) :
    ∀ (reasons : List QuoteError) (acc : CallState × Bool),
      (∀ r ∈ reasons, QuoteError.isGas r = true) →
      (reasons.foldl (processFailure cfg n) acc).2 = acc.2 ∧
      (reasons ≠ [] →
        (reasons.foldl (processFailure cfg n) acc).1.gasLimitOverride = 1000000 ∧
        (reasons.foldl (processFailure cfg n) acc).1.multicallChunk = 140)
  | [], _ => fun _ => ⟨rfl, fun h => absurd rfl h⟩
  | r :: rs, acc => fun hall => by
    rw [List.foldl_cons]
    have hr : r.isGas = true := hall r (List.mem_cons_self r rs)
    cases r with
    | providerGas msg =>
      obtain ⟨h1, h2, h3⟩ := processFailure_gas_fields cfg n acc msg
      obtain ⟨hA, hB⟩ := foldFailures_gas cfg n rs _
        (fun x hx => hall x (List.mem_cons_of_mem _ hx))
      refine ⟨hA.trans h3, fun _ => ?_⟩
      by_cases hnil : rs = []
      · subst hnil
        exact ⟨h1, h2⟩
      · exact hB hnil
    | blockConflict msg => exact absurd hr (by simp [QuoteError.isGas])
    | successRate msg => exact absurd hr (by simp [QuoteError.isGas])
    | providerBlockHeader msg => exact absurd hr (by simp [QuoteError.isGas])
    | providerTimeout msg => exact absurd hr (by simp [QuoteError.isGas])
    | unknown msg => exact absurd hr (by simp [QuoteError.isGas])

theorem foldFailures_successRate_retried (cfg : EngineConfig) (n : Nat) :
    ∀ (reasons : List QuoteError) (acc : CallState × Bool),
      (∀ r ∈ reasons, QuoteError.isSuccessRate r = true) →
      acc.1.haveRetriedForSuccessRate = true →
      reasons.foldl (processFailure cfg n) acc = acc
  | [], _ => fun _ _ => rfl
  | r :: rs, acc => fun hall h => by
    rw [List.foldl_cons]
    have hr : r.isSuccessRate = true := hall r (List.mem_cons_self r rs)
    cases r with
    | successRate msg =>
      rw [processFailure_successRate_retried cfg n acc msg h]
      exact foldFailures_successRate_retried cfg n rs acc
        (fun x hx => hall x (List.mem_cons_of_mem _ hx)) h
    | blockConflict msg => exact absurd hr (by simp [QuoteError.isSuccessRate])
    | providerGas msg => exact absurd hr (by simp [QuoteError.isSuccessRate])
    | providerBlockHeader msg => exact absurd hr (by simp [QuoteError.isSuccessRate])
    | providerTimeout msg => exact absurd hr (by simp [QuoteError.isSuccessRate])
    | unknown msg => exact absurd hr (by simp [QuoteError.isSuccessRate])

/-- All-success-rate failures on the first violation: the overrides are
installed, the flag set, `retryAll` forced — and nothing else changes. -/
theorem foldFailures_successRate (cfg : EngineConfig) (n : Nat) :
    ∀ (reasons : List QuoteError) (acc : CallState × Bool),
      (∀ r ∈ reasons, QuoteError.isSuccessRate r = true) → reasons ≠ [] →
      acc.1.haveRetriedForSuccessRate = false →
      reasons.foldl (processFailure cfg n) acc =
        ({ acc.1 with
             metrics := acc.1.metrics ++ ["QuoteSuccessRateRetry"],
             haveRetriedForSuccessRate := true,
             gasLimitOverride := cfg.successRateFailureOverrides.gasLimitOverride,
             multicallChunk := cfg.successRateFailureOverrides.multicallChunk },
         true)
  | [], _ => fun _ h _ => absurd rfl h
  | r :: rs, acc => fun hall _ hflag => by
    rw [List.foldl_cons]
    have hr : r.isSuccessRate = true := hall r (List.mem_cons_self r rs)
    cases r with
    | successRate msg =>
      rw [processFailure_successRate_first cfg n acc msg hflag]
      exact foldFailures_successRate_retried cfg n rs _
        (fun x hx => hall x (List.mem_cons_of_mem _ hx)) rfl
    | blockConflict msg => exact absurd hr (by simp [QuoteError.isSuccessRate])
    | providerGas msg => exact absurd hr (by simp [QuoteError.isSuccessRate])
    | providerBlockHeader msg => exact absurd hr (by simp [QuoteError.isSuccessRate])
    | providerTimeout msg => exact absurd hr (by simp [QuoteError.isSuccessRate])
    | unknown msg => exact absurd hr (by simp [QuoteError.isSuccessRate])

theorem foldFailures_conflictFree (cfg : EngineConfig) (n : Nat) :
    ∀ (reasons : List QuoteError) (acc : CallState × Bool),
      (∀ r ∈ reasons, QuoteError.isBlockConflict r = false) →
      (reasons.foldl (processFailure cfg n) acc).1.haveRetriedForBlockConflictError =
        acc.1.haveRetriedForBlockConflictError ∧
      ("QuoteBlockConflictErrorRetry" ∈
          (reasons.foldl (processFailure cfg n) acc).1.metrics ↔
        "QuoteBlockConflictErrorRetry" ∈ acc.1.metrics)
  | [], _ => fun _ => ⟨rfl, Iff.rfl⟩
  | r :: rs, acc => fun hall => by
    rw [List.foldl_cons]
    obtain ⟨h1, h2⟩ := processFailure_conflictFree cfg n acc r
      (hall r (List.mem_cons_self r rs))
    obtain ⟨g1, g2⟩ := foldFailures_conflictFree cfg n rs _
      (fun x hx => hall x (List.mem_cons_of_mem _ hx))
    exact ⟨g1.trans h1, g2.trans h2⟩

/-- A header failure among the reasons, with the rollback guard satisfied
at fold entry, rolls the pinned block back (to `block - 1` when the block
is truthy), sets `block_rolled_back` and forces `retryAll`. -/
theorem foldFailures_header_fires (cfg : EngineConfig) (n : Nat) :
    ∀ (reasons : List QuoteError) (acc : CallState × Bool) (k : Nat),
      acc.1.blockHeaderRetryAttemptNumber = some k → k ≠ 0 → k < n →
      acc.1.blockHeaderRolledBack = false → cfg.rollback = true →
      (∃ r ∈ reasons, QuoteError.isBlockHeader r = true) →
      (reasons.foldl (processFailure cfg n) acc).1.blockNumber =
        (if acc.1.blockNumber ≠ 0 then acc.1.blockNumber - 1
         else cfg.currentBlock - 1) ∧
      (reasons.foldl (processFailure cfg n) acc).1.blockHeaderRolledBack = true ∧
      (reasons.foldl (processFailure cfg n) acc).2 = true
  | [], _, _ => fun _ _ _ _ _ hex => absurd hex (by simp)
  | r :: rs, acc, k => fun hk hk0 hkn hrb hro hex => by
    rw [List.foldl_cons]
    by_cases hr : r.isBlockHeader = true
    · cases r with
      | providerBlockHeader msg =>
        obtain ⟨f1, f2, f3⟩ :=
          processFailure_header_fires cfg n acc msg k hk hk0 hkn hrb hro
        obtain ⟨g1, g2⟩ := foldFailures_rolled_true cfg n rs _ f2
        exact ⟨g1.trans f1, g2, foldFailures_retryAll_mono cfg n rs _ f3⟩
      | blockConflict msg => exact absurd hr (by simp [QuoteError.isBlockHeader])
      | successRate msg => exact absurd hr (by simp [QuoteError.isBlockHeader])
      | providerGas msg => exact absurd hr (by simp [QuoteError.isBlockHeader])
      | providerTimeout msg => exact absurd hr (by simp [QuoteError.isBlockHeader])
      | unknown msg => exact absurd hr (by simp [QuoteError.isBlockHeader])
    · have hnot : r.isBlockHeader = false := by
        cases hcases : r.isBlockHeader
        · rfl
        · exact absurd hcases hr
      obtain ⟨p1, p2, p3⟩ := processFailure_nonheader cfg n acc r hnot
      have hex' : ∃ x ∈ rs, QuoteError.isBlockHeader x = true := by
        rcases hex with ⟨x, hx, hxh⟩
        rcases List.mem_cons.mp hx with rfl | hx'
        · exact absurd hxh hr
        · exact ⟨x, hx', hxh⟩
      obtain ⟨q1, q2, q3⟩ := foldFailures_header_fires cfg n rs _ k
        (p3.trans hk) hk0 hkn (p2.trans hrb) hro hex'
      refine ⟨?_, q2, q3⟩
      rw [q1, p1]

/-- Decomposition of one attempt: the executor never leaves a pending
batch, so the attempt is the controller fold (seeded by the block-number
validator) followed by the `retryAll` reset, paired with the thrown or
returned outcome. -/
theorem runAttempt_eq (cfg : EngineConfig) (inputs : List EncodedInput)
    (occ : Nat) (resp : Nat → ExecResponse) (n : Nat) (st : CallState)
    (executed : List QuoteBatchState)
    (hex : executed = executeAll cfg.batchParams.quoteMinSuccessRate
      st.haveRetriedForSuccessRate resp st.quoteStates) :
    runAttempt cfg inputs occ resp n st =
      (applyRetryAll inputs (retryControllerFold cfg n
          { st with quoteStates := executed,
                    totalCallsMade := st.totalCallsMade +
                      (st.quoteStates.filter (fun s => !s.isSuccess)).length }
          (validateBlockNumbers
            ((executed.filter (fun s => s.isSuccess)).filterMap (fun s => s.resultsOf))
            occ st.gasLimitOverride).isSome
          ((executed.filter (fun s => s.isFailed)).filterMap (fun s => s.reasonOf))),
       if 0 < (executed.filter (fun s => s.isFailed)).length then
         .failedQuotes ((executed.filter (fun s => s.isFailed)).filterMap
           (fun s => s.reasonOf))
       else
         match (executed.filter (fun s => s.isSuccess)).filterMap
             (fun s => s.resultsOf) with
         | [] => .typeErrorNoSuccess
         | r0 :: rest => .done ((r0 :: rest).flatMap (fun r => r.results))
             r0.blockNumber
             (percentile100 ((r0 :: rest).map
               (fun r => r.approxGasUsedPerSuccessCall)))) := by
  subst hex
  simp only [runAttempt, partitionQuotes, executeAll_filter_pending,
    List.length_nil, gt_iff_lt, Nat.lt_irrefl, if_false]
  by_cases hfail :
      0 < ((executeAll cfg.batchParams.quoteMinSuccessRate
        st.haveRetriedForSuccessRate resp st.quoteStates).filter
          (fun s => s.isFailed)).length
  · simp [hfail]
  · simp only [hfail, if_false]
    cases hL : ((executeAll cfg.batchParams.quoteMinSuccessRate
        st.haveRetriedForSuccessRate resp st.quoteStates).filter
          (fun s => s.isSuccess)).filterMap (fun s => s.resultsOf) with
    | nil => simp
    | cons r0 rest => simp

theorem applyRetryAll_fields (inputs : List EncodedInput)
    (folded : CallState × Bool) :
    (applyRetryAll inputs folded).blockNumber = folded.1.blockNumber ∧
    (applyRetryAll inputs folded).blockHeaderRolledBack =
      folded.1.blockHeaderRolledBack ∧
    (applyRetryAll inputs folded).haveRetriedForBlockConflictError =
      folded.1.haveRetriedForBlockConflictError ∧
    (applyRetryAll inputs folded).metrics = folded.1.metrics ∧
    (applyRetryAll inputs folded).multicallChunk = folded.1.multicallChunk ∧
    (applyRetryAll inputs folded).gasLimitOverride = folded.1.gasLimitOverride ∧
    (applyRetryAll inputs folded).haveRetriedForSuccessRate =
      folded.1.haveRetriedForSuccessRate := by
  refine ⟨?_, ?_, ?_, ?_, ?_, ?_, ?_⟩ <;> simp only [applyRetryAll] <;>
    split <;> rfl

theorem applyRetryAll_true (inputs : List EncodedInput)
    (folded : CallState × Bool) (h : folded.2 = true) :
    (applyRetryAll inputs folded).quoteStates =
      (chunkList (normalizedChunkOf inputs.length folded.1.multicallChunk)
        inputs).map .pending := by
  simp [applyRetryAll, h]

theorem applyRetryAll_false (inputs : List EncodedInput)
    (folded : CallState × Bool) (h : folded.2 = false) :
    applyRetryAll inputs folded = folded.1 := by
  simp [applyRetryAll, h]

theorem failed_filter_pos {l : List QuoteBatchState}
    (h : (l.filter (fun s => s.isFailed)).filterMap (fun s => s.reasonOf) ≠ []) :
    0 < (l.filter (fun s => s.isFailed)).length := by
  cases hf : l.filter (fun s => s.isFailed) with
  | nil => rw [hf] at h; exact absurd rfl h
  | cons a as => simp [hf]

/-- C4.  (1) For a non-empty batch, `validateSuccessRate` yields an error
iff the success ratio is strictly below the floor and the call has not yet
retried for success rate — and the error is always a `SuccessRateError`.
(2) Once the call has retried, a below-floor batch is accepted as
`Success` by the executor.  (3) At attempt level, when all this attempt's
failures are success-rate failures and the flag was not yet set, the
controller raises `gas_limit_per_call` to the configured gas override,
lowers `multicall_chunk` to the configured chunk override, sets the flag,
and resets every batch to `Pending` (re-chunked with the override). -/
theorem claim_C4 :
    (∀ (m : ℚ) (results : List RawResult) (h : Bool), results ≠ [] →
      ((validateSuccessRate m results h).isSome ↔
        (((results.filter (fun r => r.success)).length : ℚ) / results.length < m ∧
          h = false))) ∧
    (∀ (m : ℚ) (results : List RawResult) (h : Bool) (e : QuoteError),
      validateSuccessRate m results h = some e → e.isSuccessRate = true) ∧
    (∀ (m : ℚ) (nStates idx : Nat) (i : List EncodedInput) (res : BatchResults),
      executeBatch m true nStates (.ok res) idx (.pending i) = .success i res ∧
      ∀ (e : QuoteError) (o : Option BatchResults),
        executeBatch m true nStates (.ok res) idx (.failed i e o) =
          .success i res) ∧
    (∀ (cfg : EngineConfig) (inputs : List EncodedInput) (occ : Nat)
        (resp : Nat → ExecResponse) (n : Nat) (st : CallState),
      st.haveRetriedForSuccessRate = false →
      (∀ r ∈ (((executeAll cfg.batchParams.quoteMinSuccessRate
          st.haveRetriedForSuccessRate resp st.quoteStates).filter
            (fun s => s.isFailed)).filterMap (fun s => s.reasonOf)),
        QuoteError.isSuccessRate r = true) →
      (((executeAll cfg.batchParams.quoteMinSuccessRate
          st.haveRetriedForSuccessRate resp st.quoteStates).filter
            (fun s => s.isFailed)).filterMap (fun s => s.reasonOf)) ≠ [] →
      (runAttempt cfg inputs occ resp n st).1.gasLimitOverride =
        cfg.successRateFailureOverrides.gasLimitOverride ∧
      (runAttempt cfg inputs occ resp n st).1.multicallChunk =
        cfg.successRateFailureOverrides.multicallChunk ∧
      (runAttempt cfg inputs occ resp n st).1.haveRetriedForSuccessRate = true ∧
      (runAttempt cfg inputs occ resp n st).1.quoteStates =
        (chunkList (normalizedChunkOf inputs.length
          cfg.successRateFailureOverrides.multicallChunk) inputs).map .pending ∧
      (runAttempt cfg inputs occ resp n st).2 =
        .failedQuotes (((executeAll cfg.batchParams.quoteMinSuccessRate
          st.haveRetriedForSuccessRate resp st.quoteStates).filter
            (fun s => s.isFailed)).filterMap (fun s => s.reasonOf))) := by
  refine ⟨?_, ?_, ?_, ?_⟩
  · intro m results h hne
    have hlen : results.length ≠ 0 := by
      cases results with
      | nil => exact absurd rfl hne
      | cons a as => simp
    constructor
    · intro hsome
      simp only [validateSuccessRate] at hsome
      split at hsome
      · next hbelow =>
        split at hsome
        · simp at hsome
        · next hh =>
          refine ⟨(rateBelowJS_iff _ m hlen).mp hbelow, ?_⟩
          revert hh
          cases h <;> simp
      · simp at hsome
    · rintro ⟨hlt, rfl⟩
      simp only [validateSuccessRate]
      rw [if_pos ((rateBelowJS_iff _ m hlen).mpr hlt)]
      simp
  · intro m results h e he
    rw [validateSuccessRate_some he]
    rfl
  · intro m nStates idx i res
    constructor
    · simp only [executeBatch]
      rw [validateSuccessRate_retried]
      rfl
    · intro e o
      simp only [executeBatch]
      rw [validateSuccessRate_retried]
      rfl
  · intro cfg inputs occ resp n st hflag hall hne
    rw [runAttempt_eq cfg inputs occ resp n st _ rfl]
    rw [retryControllerFold,
      foldFailures_successRate cfg n _ _ hall hne hflag]
    obtain ⟨a1, a2, a3, a4, a5, a6, a7⟩ := applyRetryAll_fields inputs _
    refine ⟨a6.trans rfl, a5.trans rfl, a7.trans rfl, ?_, ?_⟩
    · rw [applyRetryAll_true inputs _ rfl]
    · rw [if_pos (failed_filter_pos hne)]

/-- C10.  When all of an attempt's failures are out-of-gas errors and the
successful batches agree on the block (so `retryAll` stays unset): the
attempt throws to the retry policy, the batch vector is exactly the
executed vector — failed batches keep their own input chunks and
successful batches are untouched — while `gas_limit_per_call` drops to
1,000,000 and `multicall_chunk` to 140 without re-chunking anything; and
on the next attempt the executor passes successful batches through
unchanged and re-runs each failed batch on exactly its own inputs. -/
theorem claim_C10 :
    (∀ (cfg : EngineConfig) (inputs : List EncodedInput) (occ : Nat)
        (resp : Nat → ExecResponse) (n : Nat) (st : CallState),
      (∀ r ∈ (((executeAll cfg.batchParams.quoteMinSuccessRate
          st.haveRetriedForSuccessRate resp st.quoteStates).filter
            (fun s => s.isFailed)).filterMap (fun s => s.reasonOf)),
        QuoteError.isGas r = true) →
      validateBlockNumbers (((executeAll cfg.batchParams.quoteMinSuccessRate
          st.haveRetriedForSuccessRate resp st.quoteStates).filter
            (fun s => s.isSuccess)).filterMap (fun s => s.resultsOf))
        occ st.gasLimitOverride = none →
      (((executeAll cfg.batchParams.quoteMinSuccessRate
          st.haveRetriedForSuccessRate resp st.quoteStates).filter
            (fun s => s.isFailed)).filterMap (fun s => s.reasonOf)) ≠ [] →
      (runAttempt cfg inputs occ resp n st).1.quoteStates =
        executeAll cfg.batchParams.quoteMinSuccessRate
          st.haveRetriedForSuccessRate resp st.quoteStates ∧
      (runAttempt cfg inputs occ resp n st).1.gasLimitOverride = 1000000 ∧
      (runAttempt cfg inputs occ resp n st).1.multicallChunk = 140 ∧
      (runAttempt cfg inputs occ resp n st).2 =
        .failedQuotes (((executeAll cfg.batchParams.quoteMinSuccessRate
          st.haveRetriedForSuccessRate resp st.quoteStates).filter
            (fun s => s.isFailed)).filterMap (fun s => s.reasonOf))) ∧
    (∀ (m : ℚ) (h : Bool) (nStates : Nat) (resp : ExecResponse) (idx : Nat)
        (i : List EncodedInput) (r : BatchResults),
      executeBatch m h nStates resp idx (.success i r) = .success i r) ∧
    (∀ (m : ℚ) (h : Bool) (nStates : Nat) (resp : ExecResponse) (idx : Nat)
        (s : QuoteBatchState),
      (executeBatch m h nStates resp idx s).inputs = s.inputs) := by
  refine ⟨?_, executeBatch_success, executeBatch_inputs⟩
  intro cfg inputs occ resp n st hall hvalid hne
  rw [runAttempt_eq cfg inputs occ resp n st _ rfl]
  set executed := executeAll cfg.batchParams.quoteMinSuccessRate
    st.haveRetriedForSuccessRate resp st.quoteStates with hex
  set reasons :=
    (executed.filter (fun s => s.isFailed)).filterMap (fun s => s.reasonOf)
    with hrs
  set seed :=
    (validateBlockNumbers
      ((executed.filter (fun s => s.isSuccess)).filterMap (fun s => s.resultsOf))
      occ st.gasLimitOverride).isSome with hseed
  set acc : CallState × Bool :=
    ({ st with quoteStates := executed,
               totalCallsMade := st.totalCallsMade +
                 (st.quoteStates.filter (fun s => !s.isSuccess)).length },
     seed) with hacc
  obtain ⟨hA, hB⟩ := foldFailures_gas cfg n reasons acc hall
  obtain ⟨hB1, hB2⟩ := hB hne
  have hseedfalse : seed = false := by
    rw [hseed, hvalid]
    rfl
  have hfalse : (retryControllerFold cfg n acc.1 seed reasons).2 = false := by
    rw [retryControllerFold]
    have : (acc.1, seed) = acc := by rw [hacc]
    rw [this, hA, hacc, hseedfalse]
  have haccfold : retryControllerFold cfg n acc.1 seed reasons =
      reasons.foldl (processFailure cfg n) acc := by
    rw [retryControllerFold, hacc]
  rw [applyRetryAll_false inputs _ hfalse]
  refine ⟨?_, ?_, ?_, ?_⟩
  · rw [haccfold, foldFailures_quoteStates]
  · rw [haccfold]
    exact hB1
  · rw [haccfold]
    exact hB2
  · rw [if_pos (failed_filter_pos hne)]

/-- Witness for `claim_C4`: a two-input batch whose quotes all fail under a
floor of 1 raises the gas limit to the configured override. -/
theorem claim_C4_witness :
    (runAttempt exampleSRCfg [("p", "0x1"), ("p", "0x2")] 1 exampleSRResp 1
      (exampleInitState [.pending [("p", "0x1"), ("p", "0x2")]])).1.gasLimitOverride =
      1300000 :=
  (claim_C4.2.2.2 exampleSRCfg [("p", "0x1"), ("p", "0x2")] 1 exampleSRResp 1
    (exampleInitState [.pending [("p", "0x1"), ("p", "0x2")]])
    (by decide) (by decide) (by decide)).1

/-- Witness for `claim_C10`: a single batch failing with an out-of-gas
message lowers the gas limit to 1,000,000 while keeping the batch vector. -/
theorem claim_C10_witness :
    (runAttempt exampleCfg [("p", "0x1")] 1 exampleGasResp 3
      (exampleInitState [.pending [("p", "0x1")]])).1.gasLimitOverride = 1000000 :=
  (claim_C10.1 exampleCfg [("p", "0x1")] 1 exampleGasResp 3
    (exampleInitState [.pending [("p", "0x1")]])
    (by decide) (by decide) (by decide)).2.1

/-! ## Rollback dynamics of an attempt and of the retry loop -/

theorem runAttempt_rolled_true (cfg : EngineConfig) (inputs : List EncodedInput)
    (occ : Nat) (resp : Nat → ExecResponse) (n : Nat) (st : CallState)
    (h : st.blockHeaderRolledBack = true) :
    (runAttempt cfg inputs occ resp n st).1.blockNumber = st.blockNumber ∧
    (runAttempt cfg inputs occ resp n st).1.blockHeaderRolledBack = true := by
  rw [runAttempt_eq cfg inputs occ resp n st _ rfl]
  set executed := executeAll cfg.batchParams.quoteMinSuccessRate
    st.haveRetriedForSuccessRate resp st.quoteStates with hex
  set reasons :=
    (executed.filter (fun s => s.isFailed)).filterMap (fun s => s.reasonOf)
    with hrs
  set seed :=
    (validateBlockNumbers
      ((executed.filter (fun s => s.isSuccess)).filterMap (fun s => s.resultsOf))
      occ st.gasLimitOverride).isSome with hseed
  set acc : CallState × Bool :=
    ({ st with quoteStates := executed,
               totalCallsMade := st.totalCallsMade +
                 (st.quoteStates.filter (fun s => !s.isSuccess)).length },
     seed) with hacc
  have haccfold : retryControllerFold cfg n acc.1 seed reasons =
      reasons.foldl (processFailure cfg n) acc := by
    rw [retryControllerFold, hacc]
  obtain ⟨a1, a2, _, _, _, _, _⟩ :=
    applyRetryAll_fields inputs (retryControllerFold cfg n acc.1 seed reasons)
  obtain ⟨g1, g2⟩ := foldFailures_rolled_true cfg n reasons acc h
  rw [haccfold] at a1 a2
  exact ⟨a1.trans g1, a2.trans g2⟩

theorem runAttempt_blockDyn (cfg : EngineConfig) (inputs : List EncodedInput)
    (occ : Nat) (resp : Nat → ExecResponse) (n : Nat) (st : CallState) :
    ((runAttempt cfg inputs occ resp n st).1.blockNumber = st.blockNumber ∧
     (runAttempt cfg inputs occ resp n st).1.blockHeaderRolledBack =
       st.blockHeaderRolledBack) ∨
    (st.blockHeaderRolledBack = false ∧
     (runAttempt cfg inputs occ resp n st).1.blockHeaderRolledBack = true ∧
     (runAttempt cfg inputs occ resp n st).1.blockNumber =
       (if st.blockNumber ≠ 0 then st.blockNumber - 1
        else cfg.currentBlock - 1)) := by
  rw [runAttempt_eq cfg inputs occ resp n st _ rfl]
  set executed := executeAll cfg.batchParams.quoteMinSuccessRate
    st.haveRetriedForSuccessRate resp st.quoteStates with hex
  set reasons :=
    (executed.filter (fun s => s.isFailed)).filterMap (fun s => s.reasonOf)
    with hrs
  set seed :=
    (validateBlockNumbers
      ((executed.filter (fun s => s.isSuccess)).filterMap (fun s => s.resultsOf))
      occ st.gasLimitOverride).isSome with hseed
  set acc : CallState × Bool :=
    ({ st with quoteStates := executed,
               totalCallsMade := st.totalCallsMade +
                 (st.quoteStates.filter (fun s => !s.isSuccess)).length },
     seed) with hacc
  have haccfold : retryControllerFold cfg n acc.1 seed reasons =
      reasons.foldl (processFailure cfg n) acc := by
    rw [retryControllerFold, hacc]
  obtain ⟨a1, a2, _, _, _, _, _⟩ :=
    applyRetryAll_fields inputs (retryControllerFold cfg n acc.1 seed reasons)
  rw [haccfold] at a1 a2
  rcases foldFailures_blockDyn cfg n reasons acc with ⟨g1, g2⟩ | ⟨g1, g2, g3, g4⟩
  · exact Or.inl ⟨a1.trans g1, a2.trans g2⟩
  · exact Or.inr ⟨g1, a2.trans g2, a1.trans g4⟩

theorem runLoop_rolled_true (cfg : EngineConfig) (inputs : List EncodedInput)
    (occ : Nat) (resp : Nat → Nat → ExecResponse) :
    ∀ (fuel n : Nat) (st : CallState), st.blockHeaderRolledBack = true →
      (runLoop cfg inputs occ resp fuel n st).1.blockNumber = st.blockNumber ∧
      (runLoop cfg inputs occ resp fuel n st).1.blockHeaderRolledBack = true
  | 0, n, st => fun h => ⟨rfl, h⟩
  | fuel + 1, n, st => fun h => by
    simp only [runLoop]
    obtain ⟨a1, a2⟩ := runAttempt_rolled_true cfg inputs occ (resp n) n st h
    cases hout : (runAttempt cfg inputs occ (resp n) n st).2 with
    | done results bn gas =>
      simp only [hout]
      exact ⟨a1, a2⟩
    | pendingAfterJoin =>
      simp only [hout]
      split
      · exact ⟨a1, a2⟩
      · obtain ⟨b1, b2⟩ := runLoop_rolled_true cfg inputs occ resp fuel (n + 1) _ a2
        exact ⟨b1.trans a1, b2⟩
    | typeErrorNoSuccess =>
      simp only [hout]
      split
      · exact ⟨a1, a2⟩
      · obtain ⟨b1, b2⟩ := runLoop_rolled_true cfg inputs occ resp fuel (n + 1) _ a2
        exact ⟨b1.trans a1, b2⟩
    | failedQuotes reasons =>
      simp only [hout]
      split
      · exact ⟨a1, a2⟩
      · obtain ⟨b1, b2⟩ := runLoop_rolled_true cfg inputs occ resp fuel (n + 1) _ a2
        exact ⟨b1.trans a1, b2⟩

theorem runLoop_blockDyn (cfg : EngineConfig) (inputs : List EncodedInput)
    (occ : Nat) (resp : Nat → Nat → ExecResponse) :
    ∀ (fuel n : Nat) (st : CallState),
      ((runLoop cfg inputs occ resp fuel n st).1.blockNumber = st.blockNumber ∧
       (runLoop cfg inputs occ resp fuel n st).1.blockHeaderRolledBack =
         st.blockHeaderRolledBack) ∨
      (st.blockHeaderRolledBack = false ∧
       (runLoop cfg inputs occ resp fuel n st).1.blockHeaderRolledBack = true ∧
       (runLoop cfg inputs occ resp fuel n st).1.blockNumber =
         (if st.blockNumber ≠ 0 then st.blockNumber - 1
          else cfg.currentBlock - 1))
  | 0, n, st => Or.inl ⟨rfl, rfl⟩
  | fuel + 1, n, st => by
    simp only [runLoop]
    rcases runAttempt_blockDyn cfg inputs occ (resp n) n st with
      ⟨a1, a2⟩ | ⟨a1, a2, a3⟩
    · cases hout : (runAttempt cfg inputs occ (resp n) n st).2 with
      | done results bn gas =>
        simp only [hout]
        exact Or.inl ⟨a1, a2⟩
      | pendingAfterJoin =>
        simp only [hout]
        split
        · exact Or.inl ⟨a1, a2⟩
        · rcases runLoop_blockDyn cfg inputs occ resp fuel (n + 1) _ with
            ⟨b1, b2⟩ | ⟨b1, b2, b3⟩
          · exact Or.inl ⟨b1.trans a1, b2.trans a2⟩
          · right
            refine ⟨a2.symm.trans b1, b2, ?_⟩
            rw [b3, a1]
      | typeErrorNoSuccess =>
        simp only [hout]
        split
        · exact Or.inl ⟨a1, a2⟩
        · rcases runLoop_blockDyn cfg inputs occ resp fuel (n + 1) _ with
            ⟨b1, b2⟩ | ⟨b1, b2, b3⟩
          · exact Or.inl ⟨b1.trans a1, b2.trans a2⟩
          · right
            refine ⟨a2.symm.trans b1, b2, ?_⟩
            rw [b3, a1]
      | failedQuotes reasons =>
        simp only [hout]
        split
        · exact Or.inl ⟨a1, a2⟩
        · rcases runLoop_blockDyn cfg inputs occ resp fuel (n + 1) _ with
            ⟨b1, b2⟩ | ⟨b1, b2, b3⟩
          · exact Or.inl ⟨b1.trans a1, b2.trans a2⟩
          · right
            refine ⟨a2.symm.trans b1, b2, ?_⟩
            rw [b3, a1]
    · cases hout : (runAttempt cfg inputs occ (resp n) n st).2 with
      | done results bn gas =>
        simp only [hout]
        exact Or.inr ⟨a1, a2, a3⟩
      | pendingAfterJoin =>
        simp only [hout]
        split
        · exact Or.inr ⟨a1, a2, a3⟩
        · obtain ⟨b1, b2⟩ := runLoop_rolled_true cfg inputs occ resp fuel (n + 1) _ a2
          exact Or.inr ⟨a1, b2, b1.trans a3⟩
      | typeErrorNoSuccess =>
        simp only [hout]
        split
        · exact Or.inr ⟨a1, a2, a3⟩
        · obtain ⟨b1, b2⟩ := runLoop_rolled_true cfg inputs occ resp fuel (n + 1) _ a2
          exact Or.inr ⟨a1, b2, b1.trans a3⟩
      | failedQuotes reasons =>
        simp only [hout]
        split
        · exact Or.inr ⟨a1, a2, a3⟩
        · obtain ⟨b1, b2⟩ := runLoop_rolled_true cfg inputs occ resp fuel (n + 1) _ a2
          exact Or.inr ⟨a1, b2, b1.trans a3⟩

/-- The final metric block only changes `metrics` (and never emits the
block-conflict metric): every other observable field of the returned state
is the loop's. -/
theorem getQuotesManyData_state {ρ α : Type} [Inhabited ρ] [Inhabited α]
    (cfg : EngineConfig) (amounts : List α) (routes : List ρ)
    (encodePath : ρ → Bool → String) (exactOut : Bool)
    (hexAmount : α → String) (pinnedBlockNumber : Option Nat)
    (resp : Nat → Nat → ExecResponse) :
    (getQuotesManyData cfg amounts routes encodePath exactOut hexAmount
        pinnedBlockNumber resp).1.blockNumber =
      (callLoop cfg amounts routes encodePath exactOut hexAmount
        pinnedBlockNumber resp).1.blockNumber ∧
    (getQuotesManyData cfg amounts routes encodePath exactOut hexAmount
        pinnedBlockNumber resp).1.blockHeaderRolledBack =
      (callLoop cfg amounts routes encodePath exactOut hexAmount
        pinnedBlockNumber resp).1.blockHeaderRolledBack ∧
    (getQuotesManyData cfg amounts routes encodePath exactOut hexAmount
        pinnedBlockNumber resp).1.haveRetriedForBlockConflictError =
      (callLoop cfg amounts routes encodePath exactOut hexAmount
        pinnedBlockNumber resp).1.haveRetriedForBlockConflictError ∧
    ("QuoteBlockConflictErrorRetry" ∈
        (getQuotesManyData cfg amounts routes encodePath exactOut hexAmount
          pinnedBlockNumber resp).1.metrics ↔
      "QuoteBlockConflictErrorRetry" ∈
        (callLoop cfg amounts routes encodePath exactOut hexAmount
          pinnedBlockNumber resp).1.metrics) ∧
    (getQuotesManyData cfg amounts routes encodePath exactOut hexAmount
        pinnedBlockNumber resp).1.quoteStates =
      (callLoop cfg amounts routes encodePath exactOut hexAmount
        pinnedBlockNumber resp).1.quoteStates := by
  simp only [getQuotesManyData]
  cases hout : (callLoop cfg amounts routes encodePath exactOut hexAmount
      pinnedBlockNumber resp).2 with
  | ok a b c =>
    simp only [hout]
    refine ⟨trivial, trivial, trivial, ?_, trivial⟩
    constructor
    · intro h
      rcases List.mem_append.mp h with h | h
      · exact h
      · exact absurd h (by decide)
    · intro h
      exact List.mem_append.mpr (Or.inl h)
  | error e =>
    simp only [hout]
    exact ⟨trivial, trivial, trivial, trivial, trivial⟩

/-! ## The block-conflict arm is unreachable (C8 machinery) -/

theorem applyRetryAll_reasons (inputs : List EncodedInput)
    (folded : CallState × Bool) :
    (applyRetryAll inputs folded).quoteStates = folded.1.quoteStates ∨
    ∀ s ∈ (applyRetryAll inputs folded).quoteStates, s.reasonOf = none := by
  simp only [applyRetryAll]
  split
  · right
    intro s hs
    simp only [List.mem_map] at hs
    obtain ⟨c, _, rfl⟩ := hs
    rfl
  · left
    rfl

theorem runAttempt_conflictFree (cfg : EngineConfig) (inputs : List EncodedInput)
    (occ : Nat) (resp : Nat → ExecResponse) (n : Nat) (st : CallState)
    (hflag : st.haveRetriedForBlockConflictError = false)
    (hmet : "QuoteBlockConflictErrorRetry" ∉ st.metrics) :
    (runAttempt cfg inputs occ resp n st).1.haveRetriedForBlockConflictError =
      false ∧
    "QuoteBlockConflictErrorRetry" ∉
      (runAttempt cfg inputs occ resp n st).1.metrics ∧
    (∀ s ∈ (runAttempt cfg inputs occ resp n st).1.quoteStates,
      ∀ msg, s.reasonOf ≠ some (.blockConflict msg)) := by
  rw [runAttempt_eq cfg inputs occ resp n st _ rfl]
  set executed := executeAll cfg.batchParams.quoteMinSuccessRate
    st.haveRetriedForSuccessRate resp st.quoteStates with hex
  set reasons :=
    (executed.filter (fun s => s.isFailed)).filterMap (fun s => s.reasonOf)
    with hrs
  set seed :=
    (validateBlockNumbers
      ((executed.filter (fun s => s.isSuccess)).filterMap (fun s => s.resultsOf))
      occ st.gasLimitOverride).isSome with hseed
  set acc : CallState × Bool :=
    ({ st with quoteStates := executed,
               totalCallsMade := st.totalCallsMade +
                 (st.quoteStates.filter (fun s => !s.isSuccess)).length },
     seed) with hacc
  have haccfold : retryControllerFold cfg n acc.1 seed reasons =
      reasons.foldl (processFailure cfg n) acc := by
    rw [retryControllerFold, hacc]
  have hall : ∀ r ∈ reasons, QuoteError.isBlockConflict r = false := by
    intro r hr
    rw [hrs] at hr
    obtain ⟨s, hsf, hsr⟩ := List.mem_filterMap.mp hr
    exact executeAll_reason cfg.batchParams.quoteMinSuccessRate
      st.haveRetriedForSuccessRate resp st.quoteStates
      (List.mem_of_mem_filter hsf) hsr
  obtain ⟨_, _, a3, a4, _, _, _⟩ :=
    applyRetryAll_fields inputs (retryControllerFold cfg n acc.1 seed reasons)
  obtain ⟨g1, g2⟩ := foldFailures_conflictFree cfg n reasons acc hall
  refine ⟨a3.trans (g1.trans hflag), ?_, ?_⟩
  · rw [a4]
    intro hmem
    exact hmet (g2.mp hmem)
  · intro s hs msg hr
    rcases applyRetryAll_reasons inputs
        (retryControllerFold cfg n acc.1 seed reasons) with hSt | hNone
    · rw [hSt, haccfold, foldFailures_quoteStates] at hs
      have hconf : (QuoteError.blockConflict msg).isBlockConflict = false :=
        executeAll_reason cfg.batchParams.quoteMinSuccessRate
          st.haveRetriedForSuccessRate resp st.quoteStates hs hr
      exact absurd hconf (by simp [QuoteError.isBlockConflict])
    · rw [hNone s hs] at hr
      exact Option.noConfusion hr

theorem runLoop_conflictFree (cfg : EngineConfig) (inputs : List EncodedInput)
    (occ : Nat) (resp : Nat → Nat → ExecResponse) :
    ∀ (fuel n : Nat) (st : CallState),
      st.haveRetriedForBlockConflictError = false →
      "QuoteBlockConflictErrorRetry" ∉ st.metrics →
      (∀ s ∈ st.quoteStates, ∀ msg, s.reasonOf ≠ some (.blockConflict msg)) →
      (runLoop cfg inputs occ resp fuel n st).1.haveRetriedForBlockConflictError =
        false ∧
      "QuoteBlockConflictErrorRetry" ∉
        (runLoop cfg inputs occ resp fuel n st).1.metrics ∧
      (∀ s ∈ (runLoop cfg inputs occ resp fuel n st).1.quoteStates,
        ∀ msg, s.reasonOf ≠ some (.blockConflict msg))
  | 0, n, st => fun h1 h2 h3 => ⟨h1, h2, h3⟩
  | fuel + 1, n, st => fun h1 h2 h3 => by
    simp only [runLoop]
    obtain ⟨a1, a2, a3⟩ := runAttempt_conflictFree cfg inputs occ (resp n) n st h1 h2
    cases hout : (runAttempt cfg inputs occ (resp n) n st).2 with
    | done results bn gas =>
      simp only [hout]
      exact ⟨a1, a2, a3⟩
    | pendingAfterJoin =>
      simp only [hout]
      split
      · exact ⟨a1, a2, a3⟩
      · exact runLoop_conflictFree cfg inputs occ resp fuel (n + 1) _ a1 a2 a3
    | typeErrorNoSuccess =>
      simp only [hout]
      split
      · exact ⟨a1, a2, a3⟩
      · exact runLoop_conflictFree cfg inputs occ resp fuel (n + 1) _ a1 a2 a3
    | failedQuotes reasons =>
      simp only [hout]
      split
      · exact ⟨a1, a2, a3⟩
      · exact runLoop_conflictFree cfg inputs occ resp fuel (n + 1) _ a1 a2 a3

/-- C8.  In every invocation, whatever the aggregator does: no batch is
ever recorded as `Failed` with a `BlockConflictError` reason (the executor
only attaches success-rate or classified provider errors, and the
validator's conflict is only turned into `retryAll`), so the retry
controller's `BlockConflictError` arm never runs — its flag stays false
and the `QuoteBlockConflictErrorRetry` metric is never emitted. -/
theorem claim_C8 {ρ α : Type} [Inhabited ρ] [Inhabited α] (cfg : EngineConfig)
    (amounts : List α) (routes : List ρ) (encodePath : ρ → Bool → String)
    (exactOut : Bool) (hexAmount : α → String) (pinnedBlockNumber : Option Nat)
    (resp : Nat → Nat → ExecResponse) :
    (getQuotesManyData cfg amounts routes encodePath exactOut hexAmount
        pinnedBlockNumber resp).1.haveRetriedForBlockConflictError = false ∧
    "QuoteBlockConflictErrorRetry" ∉
      (getQuotesManyData cfg amounts routes encodePath exactOut hexAmount
        pinnedBlockNumber resp).1.metrics ∧
    (∀ s ∈ (getQuotesManyData cfg amounts routes encodePath exactOut hexAmount
        pinnedBlockNumber resp).1.quoteStates,
      ∀ msg, s.reasonOf ≠ some (.blockConflict msg)) := by
  obtain ⟨s1, s2, s3, s4, s5⟩ := getQuotesManyData_state cfg amounts routes
    encodePath exactOut hexAmount pinnedBlockNumber resp
  have hloop := runLoop_conflictFree cfg
    (buildInputs routes amounts encodePath exactOut hexAmount)
    (chunkList (normalizedChunkOf
      (buildInputs routes amounts encodePath exactOut hexAmount).length
      cfg.batchParams.multicallChunk)
      (buildInputs routes amounts encodePath exactOut hexAmount)).length
    resp (cfg.retries + 1) 1
    (initialCallState cfg (pinnedBlockNumber.getD cfg.currentBlock)
      (chunkList (normalizedChunkOf
        (buildInputs routes amounts encodePath exactOut hexAmount).length
        cfg.batchParams.multicallChunk)
        (buildInputs routes amounts encodePath exactOut hexAmount)))
    rfl (by simp [initialCallState]) ?_
  · refine ⟨s3.trans hloop.1, ?_, ?_⟩
    · intro hmem
      exact hloop.2.1 (s4.mp hmem)
    · intro s hs
      rw [s5] at hs
      exact hloop.2.2 s hs
  · intro s hs msg
    simp only [initialCallState, List.mem_map] at hs
    obtain ⟨c, _, rfl⟩ := hs
    simp [QuoteBatchState.reasonOf]

/-- C5.  (1) With `rollback` enabled, when a block-header failure arrives
on an attempt strictly later than a recorded earlier block-header attempt
and no rollback has happened yet, the attempt decrements the (truthy)
pinned block number by exactly 1, sets `block_rolled_back`, and resets
every batch to `Pending`.  (2) Per call, the pinned block is decremented
at most once: the call's final block number is either the pinned block
unchanged, or (only with the rollback flag set) exactly one less. -/
theorem claim_C5 :
    (∀ (cfg : EngineConfig) (inputs : List EncodedInput) (occ : Nat)
        (resp : Nat → ExecResponse) (n : Nat) (st : CallState) (k : Nat),
      cfg.rollback = true →
      st.blockHeaderRetryAttemptNumber = some k → k ≠ 0 → k < n →
      st.blockHeaderRolledBack = false → st.blockNumber ≠ 0 →
      (∃ r ∈ (((executeAll cfg.batchParams.quoteMinSuccessRate
          st.haveRetriedForSuccessRate resp st.quoteStates).filter
            (fun s => s.isFailed)).filterMap (fun s => s.reasonOf)),
        QuoteError.isBlockHeader r = true) →
      (runAttempt cfg inputs occ resp n st).1.blockNumber =
        st.blockNumber - 1 ∧
      (runAttempt cfg inputs occ resp n st).1.blockHeaderRolledBack = true ∧
      (∀ s ∈ (runAttempt cfg inputs occ resp n st).1.quoteStates,
        s.isPending = true)) ∧
    (∀ (ρ α : Type) (instρ : Inhabited ρ) (instα : Inhabited α)
        (cfg : EngineConfig) (amounts : List α) (routes : List ρ)
        (encodePath : ρ → Bool → String) (exactOut : Bool)
        (hexAmount : α → String) (pinnedBlockNumber : Option Nat)
        (resp : Nat → Nat → ExecResponse),
      pinnedBlockNumber.getD cfg.currentBlock ≠ 0 →
      (getQuotesManyData cfg amounts routes encodePath exactOut hexAmount
          pinnedBlockNumber resp).1.blockNumber =
        pinnedBlockNumber.getD cfg.currentBlock ∨
      ((getQuotesManyData cfg amounts routes encodePath exactOut hexAmount
          pinnedBlockNumber resp).1.blockNumber =
          pinnedBlockNumber.getD cfg.currentBlock - 1 ∧
        (getQuotesManyData cfg amounts routes encodePath exactOut hexAmount
          pinnedBlockNumber resp).1.blockHeaderRolledBack = true)) := by
  constructor
  · intro cfg inputs occ resp n st k hro hk hk0 hkn hrb hbn hex
    rw [runAttempt_eq cfg inputs occ resp n st _ rfl]
    set executed := executeAll cfg.batchParams.quoteMinSuccessRate
      st.haveRetriedForSuccessRate resp st.quoteStates with hexe
    set reasons :=
      (executed.filter (fun s => s.isFailed)).filterMap (fun s => s.reasonOf)
      with hrs
    set seed :=
      (validateBlockNumbers
        ((executed.filter (fun s => s.isSuccess)).filterMap (fun s => s.resultsOf))
        occ st.gasLimitOverride).isSome with hseed
    set acc : CallState × Bool :=
      ({ st with quoteStates := executed,
                 totalCallsMade := st.totalCallsMade +
                   (st.quoteStates.filter (fun s => !s.isSuccess)).length },
       seed) with hacc
    have haccfold : retryControllerFold cfg n acc.1 seed reasons =
        reasons.foldl (processFailure cfg n) acc := by
      rw [retryControllerFold, hacc]
    obtain ⟨a1, a2, _, _, _, _, _⟩ :=
      applyRetryAll_fields inputs (retryControllerFold cfg n acc.1 seed reasons)
    obtain ⟨f1, f2, f3⟩ := foldFailures_header_fires cfg n reasons acc k
      hk hk0 hkn hrb hro hex
    have f3' : (retryControllerFold cfg n acc.1 seed reasons).2 = true := by
      rw [haccfold]
      exact f3
    refine ⟨?_, a2.trans f2, ?_⟩
    · have hchain := a1.trans f1
      rw [hchain]
      exact if_pos hbn
    · rw [applyRetryAll_true inputs _ f3']
      intro s hs
      obtain ⟨c, _, rfl⟩ := List.mem_map.mp hs
      rfl
  · intro ρ α instρ instα cfg amounts routes encodePath exactOut hexAmount
      pinned resp hbn
    obtain ⟨s1, s2, _, _, _⟩ := getQuotesManyData_state cfg amounts routes
      encodePath exactOut hexAmount pinned resp
    rcases runLoop_blockDyn cfg
        (buildInputs routes amounts encodePath exactOut hexAmount)
        (chunkList (normalizedChunkOf
          (buildInputs routes amounts encodePath exactOut hexAmount).length
          cfg.batchParams.multicallChunk)
          (buildInputs routes amounts encodePath exactOut hexAmount)).length
        resp (cfg.retries + 1) 1
        (initialCallState cfg (pinned.getD cfg.currentBlock)
          (chunkList (normalizedChunkOf
            (buildInputs routes amounts encodePath exactOut hexAmount).length
            cfg.batchParams.multicallChunk)
            (buildInputs routes amounts encodePath exactOut hexAmount))) with
      ⟨b1, _⟩ | ⟨_, b2, b3⟩
    · exact Or.inl (s1.trans b1)
    · right
      refine ⟨?_, s2.trans b2⟩
      rw [s1]
      simp only [callLoop]
      rw [b3]
      exact if_pos hbn

/-- Witness for `claim_C5`: attempt 2 sees another `header not found` after
attempt 1 recorded one; the pinned block 100 rolls back to 99. -/
theorem claim_C5_witness :
    (runAttempt exampleRollbackCfg [("p", "0x1")] 1 exampleHeaderResp 2
      exampleHeaderState).1.blockNumber = exampleHeaderState.blockNumber - 1 :=
  (claim_C5.1 exampleRollbackCfg [("p", "0x1")] 1 exampleHeaderResp 2
    exampleHeaderState 1 (by decide) (by decide) (by decide) (by decide)
    (by decide) (by decide) (by decide)).1

end V3
